import Mathlib

/-!
# Lithium: the unit-test runner

A shallow embedding of `src/unit/runner.c`, `src/unit/testlib.c`,
`src/unit/runner_main.c`, `src/util/timespec.c` and `src/cmdline/cmdline.c`.

* The linked list of `struct li_unit_test` is a `List li_unit_test`; a pointer into
  the list (`runner_state.remaining_tests`) is the position of the record it points
  to, and the length of the list stands for `NULL`.
* The file-scope `runner_state` and the list it works on are one record, `Runner`,
  passed from step to step.
* Every system call takes its result from an oracle (`Sys` for one scheduler
  iteration, `Setup` for the set-up of a run). The process table is part of the
  state: `children` holds the pids of workers forked and not yet waited for.
* `unsigned int` arithmetic is reduced modulo `2^32`; arithmetic on `int` goes
  through `wrap_int`. `time_t` and `long` (64 bits) are integers.
* A C string is the list of its characters before the terminating NUL (the
  name of a test is a `String`); `NULL` is `none`. A function whose behaviour is
  undefined at an input (a write through `NULL`, a read past the end of `argv`)
  returns `none` there.
-/

namespace Lithium

/-! ## Machine integers -/

/-- The number of values of an `unsigned int`. -/
def UINT_RANGE : Nat := 4294967296

/-- The largest `int`. -/
def INT_MAX : Int := 2147483647

/-- The `int` a 32-bit two's-complement machine stores for the arithmetic result `x`. -/
def wrap_int (x : Int) : Int := (x + 2147483648) % 4294967296 - 2147483648

/-- Conversion of an `int` to `unsigned int` (the usual arithmetic conversions). -/
def to_unsigned (x : Int) : Nat := (x % 4294967296).toNat

/-! ## `util/timespec.c` -/

/-- The two fields of `struct timespec`. -/
structure Timespec where
  tv_sec : Int
  tv_nsec : Int
deriving DecidableEq

def NSEC_PER_SEC : Int := 1000000000

def li_util_timespec_subtract (a b : Timespec) : Timespec :=
  if a.tv_nsec < b.tv_nsec then
    { tv_sec := a.tv_sec - b.tv_sec - 1
      tv_nsec := (NSEC_PER_SEC - b.tv_nsec) + a.tv_nsec }
  else
    { tv_sec := a.tv_sec - b.tv_sec
      tv_nsec := a.tv_nsec - b.tv_nsec }

def li_util_timespec_lt (a b : Timespec) : Bool :=
  if a.tv_sec < b.tv_sec then true
  else if a.tv_sec = b.tv_sec then decide (a.tv_nsec < b.tv_nsec)
  else false

/-! ## `unit.h`: the data model -/

/-- The anonymous enum of `priv.state`, in declaration order. -/
inductive TestState
  | _LI_UNIT_NOT_STARTED
  | _LI_UNIT_RUNNING
  | _LI_UNIT_PENDING_DEADLINE_EXCEEDED
  | _LI_UNIT_SUCCEEDED
  | _LI_UNIT_FAILED
  | _LI_UNIT_DEADLINE_EXCEEDED
deriving DecidableEq

open TestState

/-- The integer value of an enumerator. -/
def TestState.value : TestState → Nat
  | _LI_UNIT_NOT_STARTED => 0
  | _LI_UNIT_RUNNING => 1
  | _LI_UNIT_PENDING_DEADLINE_EXCEEDED => 2
  | _LI_UNIT_SUCCEEDED => 3
  | _LI_UNIT_FAILED => 4
  | _LI_UNIT_DEADLINE_EXCEEDED => 5

structure li_unit_test_options where
  informational : Bool := false
  disabled : Bool := false
  timeout_multiplier : Int := 0
deriving DecidableEq

/-- One evaluation of `ASSERT(condition)` or `EXPECT(condition)` in a test
body, with the value of the condition. -/
inductive Check
  | ASSERT (condition : Bool)
  | EXPECT (condition : Bool)
deriving DecidableEq

/-- One record of the test list. `state` to `deadline` are the fields of `priv`
that the runner uses; `rest` is the tail of the list the record stands in. The
function `func` is the sequence of checks its body evaluates when none of them
ends it. -/
structure li_unit_test where
  name : String := ""
  options : li_unit_test_options := {}
  func : List Check := []
  state : TestState := _LI_UNIT_NOT_STARTED
  pid : Int := 0
  has_deadline : Bool := false
  start_time : Timespec := ⟨0, 0⟩
  elapsed_time : Timespec := ⟨0, 0⟩
  deadline : Timespec := ⟨0, 0⟩
deriving DecidableEq

/-- The scalar fields of `struct li_unit_runner_options`; `test_list` is passed
separately, as the list itself. -/
structure li_unit_runner_options where
  default_timeout : Int := 0
  parallelism : Nat := 0
  status_update_frequency : Nat := 0
  filter : Option (li_unit_test → Bool) := none

/-! ## `unit/runner.c`: state and system calls -/

/-- What the runner does to the outside world, in the order it does it. -/
inductive Event
  | kill (pid : Int) (result : Int)
  | status_update
  | pselect (timeout : Timespec)
deriving DecidableEq

/-- The file-scope `runner_state`, the test list it walks, and the part of the
process state the runner depends on. -/
structure Runner where
  test_list : List li_unit_test := []
  completed_tests : Nat := 0
  total_tests : Nat := 0
  running_jobs : Int := 0
  status_update_deadline : Timespec := ⟨0, 0⟩
  /-- Position of the record `remaining_tests` points to; `test_list.length` is `NULL`. -/
  remaining_tests : Nat := 0
  /-- Pids of the workers forked and not yet waited for. -/
  children : List Int := []
  /-- Every pid `fork` has returned during this run. -/
  forked : List Int := []
  /-- The calls made so far, latest first. -/
  events : List Event := []
deriving DecidableEq

/-- Results of the system calls of one call of `test_runner_iterate`; a clock
reading of `none` is a failed `clock_gettime`. -/
structure Sys where
  spawn_clock : Option Timespec := some ⟨0, 0⟩
  fork : Int := 1
  read : Int := 0
  waitpid : Int := 0
  status : Nat := 0
  reap_clock : Option Timespec := some ⟨0, 0⟩
  now : Option Timespec := some ⟨0, 0⟩
  status_clock : Option Timespec := some ⟨0, 0⟩
  kill : Int := 0
  pselect : Int := 0
  errno_is_EINTR : Bool := false

/-- `WIFEXITED` of `sys/wait.h`: the low seven bits of the status are zero. -/
def WIFEXITED (status : Nat) : Bool := status % 128 == 0

/-- `WEXITSTATUS` of `sys/wait.h`: bits 8 to 15 of the status. -/
def WEXITSTATUS (status : Nat) : Nat := (status / 256) % 256

/-! ## `unit/runner.c`: the functions -/

/-- Admission of the record at `remaining_tests`. The caller has checked that
`remaining_tests` is not `NULL`. A pid of 0 is the worker, which leaves through
`li_unit_run_test` and does not return; the runner sees a pid or a failure. -/
def spawn_test (default_timeout : Int) (sys : Sys) (w : Runner) : Int × Runner :=
  match w.test_list[w.remaining_tests]? with
  | none => (-1, w)
  | some test =>
    if test.state ≠ _LI_UNIT_NOT_STARTED then (-1, w)
    else
      let test : li_unit_test := { test with state := _LI_UNIT_RUNNING }
      let w1 := { w with
        remaining_tests := w.remaining_tests + 1
        running_jobs := wrap_int (w.running_jobs + 1) }
      match sys.spawn_clock with
      | none => (-1, { w1 with test_list := w.test_list.set w.remaining_tests test })
      | some t =>
        let test : li_unit_test := { test with start_time := t }
        if sys.fork < 0 then
          (-1, { w1 with test_list := w.test_list.set w.remaining_tests test })
        else
          let test : li_unit_test := { test with pid := sys.fork }
          let timeout_multiplier : Int :=
            if test.options.timeout_multiplier = 0 then 1
            else test.options.timeout_multiplier
          let test : li_unit_test :=
            if timeout_multiplier > 0 ∧ default_timeout > 0 then
              { test with
                has_deadline := true
                deadline :=
                  { tv_nsec := test.start_time.tv_nsec
                    tv_sec := test.start_time.tv_sec
                      + wrap_int (timeout_multiplier * default_timeout) } }
            else { test with has_deadline := false }
          (0, { w1 with
            test_list := w.test_list.set w.remaining_tests test
            children := sys.fork :: w.children
            forked := sys.fork :: w.forked })

/-- The search loop of `handle_waitpid`: the first record of the list whose
`priv.pid` is `pid`, with its position. -/
def find_test : List li_unit_test → Int → Option (Nat × li_unit_test)
  | [], _ => none
  | t :: ts, pid =>
    if t.pid = pid then some (0, t)
    else (find_test ts pid).map (fun r => (r.1 + 1, r.2))

def handle_waitpid (pid : Int) (status : Nat) (sys : Sys) (w : Runner) : Int × Runner :=
  match sys.reap_clock with
  | none => (-1, w)
  | some now =>
    match find_test w.test_list pid with
    | none => (-1, w)
    | some (i, test) =>
      if ¬ (test.state = _LI_UNIT_RUNNING
          ∨ TestState.value _LI_UNIT_PENDING_DEADLINE_EXCEEDED ≠ 0) then (-1, w)
      else
        let test : li_unit_test := { test with
          elapsed_time := li_util_timespec_subtract now test.start_time }
        let test : li_unit_test :=
          if WIFEXITED status = true ∧ WEXITSTATUS status = 0 then
            { test with state := _LI_UNIT_SUCCEEDED }
          else if test.state = _LI_UNIT_PENDING_DEADLINE_EXCEEDED then
            { test with state := _LI_UNIT_DEADLINE_EXCEEDED }
          else { test with state := _LI_UNIT_FAILED }
        (0, { w with
          running_jobs := wrap_int (w.running_jobs - 1)
          completed_tests := (w.completed_tests + 1) % UINT_RANGE
          test_list := w.test_list.set i test })

/-- The record is given by its position `i` in the list. -/
def handle_deadline (i : Nat) (sys : Sys) (w : Runner) : Int × Runner :=
  match w.test_list[i]? with
  | none => (-1, w)
  | some test =>
    let w1 := { w with events := Event.kill test.pid sys.kill :: w.events }
    if sys.kill < 0 then (-1, w1)
    else
      (0, { w1 with
        test_list :=
          w.test_list.set i { test with state := _LI_UNIT_PENDING_DEADLINE_EXCEEDED } })

def handle_status_update (status_update_frequency : Nat) (sys : Sys) (w : Runner) :
    Int × Runner :=
  let w1 := { w with events := Event.status_update :: w.events }
  match sys.status_clock with
  | none => (-1, w1)
  | some t =>
    (0, { w1 with
      status_update_deadline :=
        { tv_sec := t.tv_sec + status_update_frequency, tv_nsec := t.tv_nsec } })

inductive IterateResult
  | TEST_RUNNER_ITERATE_AGAIN
  | TEST_RUNNER_ITERATE_FAILURE
  | TEST_RUNNER_ITERATE_SUCCESS
deriving DecidableEq

open IterateResult

/-- Where the scan for deadlines in `test_runner_iterate` ends: at the record
at position `i`, which is past its deadline, or after the last admitted record
with the nearest deadline found. -/
inductive ScanResult
  | expired (i : Nat)
  | next_deadline (t : Timespec)
deriving DecidableEq

/-- The `for` loop of `test_runner_iterate` over the admitted records, `i`
being the position of the head of the list still to scan. -/
def scan_deadlines (now : Timespec) : List li_unit_test → Nat → Timespec → ScanResult
  | [], _, next_deadline => ScanResult.next_deadline next_deadline
  | test :: rest, i, next_deadline =>
    if test.state = _LI_UNIT_RUNNING ∧ test.has_deadline = true
        ∧ li_util_timespec_lt test.deadline now = true then
      ScanResult.expired i
    else if test.state = _LI_UNIT_RUNNING ∧ test.has_deadline = true
        ∧ li_util_timespec_lt test.deadline next_deadline = true then
      scan_deadlines now rest (i + 1) test.deadline
    else scan_deadlines now rest (i + 1) next_deadline

def test_runner_iterate (options : li_unit_runner_options) (sys : Sys) (w : Runner) :
    IterateResult × Runner :=
  if w.running_jobs = 0 ∧ w.test_list.length ≤ w.remaining_tests then
    (TEST_RUNNER_ITERATE_SUCCESS, w)
  else if to_unsigned w.running_jobs < options.parallelism
      ∧ w.remaining_tests < w.test_list.length then
    let r := spawn_test options.default_timeout sys w
    if r.1 < 0 then (TEST_RUNNER_ITERATE_FAILURE, r.2)
    else (TEST_RUNNER_ITERATE_AGAIN, r.2)
  else if sys.read > 0 then (TEST_RUNNER_ITERATE_AGAIN, w)
  else if sys.waitpid < 0 then (TEST_RUNNER_ITERATE_FAILURE, w)
  else if sys.waitpid > 0 then
    let r := handle_waitpid sys.waitpid sys.status sys
      { w with children := w.children.erase sys.waitpid }
    if r.1 < 0 then (TEST_RUNNER_ITERATE_FAILURE, r.2)
    else (TEST_RUNNER_ITERATE_AGAIN, r.2)
  else
    match sys.now with
    | none => (TEST_RUNNER_ITERATE_FAILURE, w)
    | some now =>
      if now.tv_sec ≥ w.status_update_deadline.tv_sec
          ∧ now.tv_nsec ≥ w.status_update_deadline.tv_nsec then
        let r := handle_status_update options.status_update_frequency sys w
        if r.1 < 0 then (TEST_RUNNER_ITERATE_FAILURE, r.2)
        else (TEST_RUNNER_ITERATE_AGAIN, r.2)
      else
        match scan_deadlines now (w.test_list.take w.remaining_tests) 0
            w.status_update_deadline with
        | ScanResult.expired i =>
          (TEST_RUNNER_ITERATE_AGAIN, (handle_deadline i sys w).2)
        | ScanResult.next_deadline next_deadline =>
          let timeout := li_util_timespec_subtract next_deadline now
          let w1 := { w with events := Event.pselect timeout :: w.events }
          if sys.pselect < 0 then
            if sys.errno_is_EINTR then (TEST_RUNNER_ITERATE_AGAIN, w1)
            else (TEST_RUNNER_ITERATE_FAILURE, w1)
          else (TEST_RUNNER_ITERATE_AGAIN, w1)

/-! ## `li_unit_run_tests` -/

/-- Results of the system calls `li_unit_run_tests` makes before its loop. -/
structure Setup where
  get_nprocs : Int := 1
  pipe : Int := 0
  fcntl_getfl_0 : Int := 0
  fcntl_setfl_0 : Int := 0
  fcntl_getfl_1 : Int := 0
  fcntl_setfl_1 : Int := 0
  clock : Option Timespec := some ⟨0, 0⟩
  sigaction : Int := 0

/-- The defaults `li_unit_run_tests` writes into its options. -/
def default_options (setup : Setup) (options : li_unit_runner_options) :
    li_unit_runner_options :=
  let options :=
    if options.default_timeout = 0 then { options with default_timeout := 10 }
    else options
  let options :=
    if options.parallelism = 0 then
      { options with parallelism := to_unsigned setup.get_nprocs }
    else options
  if options.status_update_frequency = 0 then
    { options with status_update_frequency := 15 }
  else options

/-- The loop counting the records into `runner_state.total_tests`. -/
def count_tests : List li_unit_test → Nat → Nat
  | [], total => total
  | _ :: rest, total => count_tests rest ((total + 1) % UINT_RANGE)

/-- The state after `memset` and the assignments before the loop, `clock`
being the reading stored in `status_update_deadline`. -/
def initial_state (options : li_unit_runner_options) (test_list : List li_unit_test)
    (clock : Timespec) : Runner :=
  { test_list := test_list
    total_tests := count_tests test_list 0
    status_update_deadline :=
      { tv_sec := clock.tv_sec + options.status_update_frequency
        tv_nsec := clock.tv_nsec } }

/-- The `for (;;)` loop: one oracle per iteration, `none` when the oracles run
out before the loop has left. -/
def run_loop (options : li_unit_runner_options) :
    List Sys → Runner → Option (IterateResult × Runner)
  | [], _ => none
  | sys :: rest, w =>
    match test_runner_iterate options sys w with
    | (TEST_RUNNER_ITERATE_AGAIN, w1) => run_loop options rest w1
    | r => some r

/-- The loop after the label `exit`: `(failures, informational_failures)`. -/
def count_failures : List li_unit_test → Nat → Nat → Nat × Nat
  | [], failures, informational_failures => (failures, informational_failures)
  | test :: rest, failures, informational_failures =>
    if test.state ≠ _LI_UNIT_SUCCEEDED then
      if test.options.informational then
        count_failures rest failures ((informational_failures + 1) % UINT_RANGE)
      else count_failures rest ((failures + 1) % UINT_RANGE) informational_failures
    else count_failures rest failures informational_failures

/-- The value returned after the label `exit`: `failures > 0`. -/
def exit_status (test_list : List li_unit_test) : Int :=
  if (count_failures test_list 0 0).1 > 0 then 1 else 0

/-- The whole of `li_unit_run_tests`: the value returned and the final state.
`li_unit_test_list` is the global list, used when `options->test_list` is `NULL`
(the empty list). -/
def li_unit_run_tests (setup : Setup) (li_unit_test_list : List li_unit_test)
    (options : li_unit_runner_options) (test_list : List li_unit_test)
    (script : List Sys) : Option (Int × Runner) :=
  let options := default_options setup options
  let test_list := if test_list.isEmpty then li_unit_test_list else test_list
  let w : Runner := { test_list := test_list, total_tests := count_tests test_list 0 }
  if setup.pipe < 0 then some (-1, w)
  else if setup.fcntl_getfl_0 < 0 then some (-1, w)
  else if setup.fcntl_setfl_0 < 0 then some (-1, w)
  else if setup.fcntl_getfl_1 < 0 then some (-1, w)
  else if setup.fcntl_setfl_1 < 0 then some (-1, w)
  else
    match setup.clock with
    | none => some (-1, w)
    | some clock =>
      let w := initial_state options test_list clock
      if setup.sigaction < 0 then some (-1, w)
      else
        match run_loop options script w with
        | none => none
        | some (TEST_RUNNER_ITERATE_SUCCESS, w1) => some (exit_status w1.test_list, w1)
        | some (_, w1) => some (-1, w1)

/-! ## The environment -/

/-- The assumption on the pids of one iteration under which the runs of
`Reachable` are taken: in the runner `fork` does not return 0, it returns no pid
it has returned before during the run, and `waitpid` reports only a worker
forked and not yet waited for. The second part is more than the operating
system guarantees (that is `Sys.os_valid`): the pid of a worker that has been
waited for can be returned again, and a run in which it is is not one of
`Reachable`. -/
def Sys.valid (sys : Sys) (w : Runner) : Prop :=
  sys.fork ≠ 0 ∧ (0 < sys.fork → sys.fork ∉ w.forked)
    ∧ (0 < sys.waitpid → sys.waitpid ∈ w.children)

instance Sys.valid_decidable (sys : Sys) (w : Runner) : Decidable (sys.valid w) :=
  inferInstanceAs (Decidable (sys.fork ≠ 0 ∧ (0 < sys.fork → sys.fork ∉ w.forked)
    ∧ (0 < sys.waitpid → sys.waitpid ∈ w.children)))

/-- The states the loop of `li_unit_run_tests` passes through in a run whose
oracles respect `Sys.valid`, each with the result of the iteration that
produced it: the loop iterates only after `TEST_RUNNER_ITERATE_AGAIN`. -/
inductive Reachable (options : li_unit_runner_options) (test_list : List li_unit_test) :
    IterateResult → Runner → Prop
  | start (clock : Timespec) :
    Reachable options test_list TEST_RUNNER_ITERATE_AGAIN
      (initial_state options test_list clock)
  | iterate (sys : Sys) (w : Runner) :
    Reachable options test_list TEST_RUNNER_ITERATE_AGAIN w → sys.valid w →
    Reachable options test_list (test_runner_iterate options sys w).1
      (test_runner_iterate options sys w).2

/-- A record that counts as a failure of the run. -/
def hard_failure (t : li_unit_test) : Bool :=
  !t.options.informational && decide (t.state ≠ _LI_UNIT_SUCCEEDED)

/-! ## Invariants of the loop -/

/-- What holds of `running_jobs` in the state `w` left by an iteration with
result `r`: it is the number of workers not yet waited for (unless the
iteration failed), at most the number of records admitted and at most
`parallelism`. -/
def jobs_invariant (options : li_unit_runner_options) (test_list : List li_unit_test)
    (r : IterateResult) (w : Runner) : Prop :=
  0 ≤ w.running_jobs ∧ w.running_jobs ≤ w.remaining_tests
    ∧ (1 ≤ options.parallelism → w.running_jobs ≤ options.parallelism)
    ∧ w.remaining_tests ≤ w.test_list.length ∧ w.test_list.length = test_list.length
    ∧ (r ≠ TEST_RUNNER_ITERATE_FAILURE → w.running_jobs = w.children.length)

/-- What holds of the counters in the state `w` left by an iteration with
result `r`: modulo `2^32`, the records admitted are those completed and those
running. -/
def count_invariant (test_list : List li_unit_test) (r : IterateResult) (w : Runner) :
    Prop :=
  ((w.completed_tests : Int) + w.running_jobs - w.remaining_tests) % 4294967296 = 0
    ∧ w.completed_tests < UINT_RANGE
    ∧ w.remaining_tests ≤ w.test_list.length ∧ w.test_list.length = test_list.length
    ∧ w.total_tests = test_list.length % UINT_RANGE
    ∧ (r = TEST_RUNNER_ITERATE_SUCCESS →
        w.running_jobs = 0 ∧ w.test_list.length ≤ w.remaining_tests)

/-- The test of the deadline scan: the record is running and its deadline is
earlier than `now`. -/
def past_deadline (now : Timespec) (t : li_unit_test) : Prop :=
  t.state = _LI_UNIT_RUNNING ∧ t.has_deadline = true
    ∧ li_util_timespec_lt t.deadline now = true

instance past_deadline_decidable (now : Timespec) (t : li_unit_test) :
    Decidable (past_deadline now t) :=
  inferInstanceAs (Decidable (t.state = _LI_UNIT_RUNNING ∧ t.has_deadline = true
    ∧ li_util_timespec_lt t.deadline now = true))

/-- The record has a worker that has not been waited for. -/
def active (t : li_unit_test) : Prop :=
  t.state = _LI_UNIT_RUNNING ∨ t.state = _LI_UNIT_PENDING_DEADLINE_EXCEEDED

/-- How the records before the cursor `c` and the process table fit together:
none is `_LI_UNIT_NOT_STARTED`, their pids are pairwise distinct and were
returned by `fork`, and the workers not yet waited for are those of the records
that are running or killed and not yet reaped. -/
def records_ok (l : List li_unit_test) (c : Nat) (children forked : List Int) : Prop :=
  (∀ i t, l[i]? = some t → i < c → t.state ≠ _LI_UNIT_NOT_STARTED)
    ∧ (∀ i j ti tj, l[i]? = some ti → l[j]? = some tj → i < c → j < c →
        ti.pid = tj.pid → i = j)
    ∧ (∀ i t, l[i]? = some t → i < c → t.pid ∈ forked)
    ∧ (∀ i t, l[i]? = some t → i < c → (t.pid ∈ children ↔ active t))
    ∧ (∀ p ∈ children, ∃ i t, l[i]? = some t ∧ i < c ∧ t.pid = p)
    ∧ children.Nodup

/-- In the state `w` left by an iteration with result `r`, unless it failed,
`records_ok` holds. -/
def records_invariant (r : IterateResult) (w : Runner) : Prop :=
  r ≠ TEST_RUNNER_ITERATE_FAILURE →
    records_ok w.test_list w.remaining_tests w.children w.forked

/-- The oracles of `script` respect `Sys.valid` along the loop started in `w`. -/
def script_valid (options : li_unit_runner_options) : List Sys → Runner → Prop
  | [], _ => True
  | sys :: rest, w =>
    sys.valid w
    ∧ ((test_runner_iterate options sys w).1 = TEST_RUNNER_ITERATE_AGAIN →
        script_valid options rest (test_runner_iterate options sys w).2)

instance script_valid_decidable (options : li_unit_runner_options) :
    (script : List Sys) → (w : Runner) → Decidable (script_valid options script w)
  | [], _ => inferInstanceAs (Decidable True)
  | sys :: rest, w =>
    have := script_valid_decidable options rest (test_runner_iterate options sys w).2
    inferInstanceAs (Decidable (sys.valid w
      ∧ ((test_runner_iterate options sys w).1 = TEST_RUNNER_ITERATE_AGAIN →
          script_valid options rest (test_runner_iterate options sys w).2)))

/-! ## A run used as an example -/

def example_setup : Setup := { clock := some ⟨1000, 0⟩ }

def example_options : li_unit_runner_options := { default_timeout := 5, parallelism := 2 }

/-- A failing test, a failing informational test and a passing test. -/
def example_list : List li_unit_test :=
  [ { name := "lithium.example.fails" },
    { name := "lithium.example.flaky", options := { informational := true } },
    { name := "lithium.example.passes" } ]

/-- Two admissions, a notification, a worker that exited with status 1, the
third admission, a second worker that exited with status 1, a wait, a
notification, a worker that exited with status 0, and the iteration that
finds nothing left. -/
def example_script : List Sys :=
  [ { spawn_clock := some ⟨1000, 500⟩, fork := 101 },
    { spawn_clock := some ⟨1000, 600⟩, fork := 102 },
    { read := 1 },
    { waitpid := 101, status := 256, reap_clock := some ⟨1001, 100⟩ },
    { spawn_clock := some ⟨1001, 200⟩, fork := 103 },
    { waitpid := 102, status := 256, reap_clock := some ⟨1001, 300⟩ },
    { now := some ⟨1001, 400⟩ },
    { read := 1 },
    { waitpid := 103, status := 0, reap_clock := some ⟨1002, 0⟩ },
    {} ]

/-- The state in which the example run ends. -/
def example_final : Runner :=
  ((li_unit_run_tests example_setup [] example_options example_list example_script).getD
    (0, {})).2

/-- A state in the middle of a run: one worker running, one killed at its
deadline and not yet waited for, one record not admitted. -/
def example_running : Runner :=
  { test_list :=
      [ { name := "lithium.example.fails", state := _LI_UNIT_RUNNING, pid := 101,
          has_deadline := true, start_time := ⟨1000, 500⟩, deadline := ⟨1005, 500⟩ },
        { name := "lithium.example.flaky", options := { informational := true },
          state := _LI_UNIT_PENDING_DEADLINE_EXCEEDED, pid := 102,
          has_deadline := true, start_time := ⟨1000, 600⟩, deadline := ⟨1005, 600⟩ },
        { name := "lithium.example.passes" } ]
    total_tests := 3
    running_jobs := 2
    status_update_deadline := ⟨1015, 0⟩
    remaining_tests := 2
    children := [102, 101]
    forked := [102, 101]
    events := [Event.kill 102 0] }

/-- An admission: the third record of `example_running` is started. -/
def example_admission : Sys := { spawn_clock := some ⟨1001, 200⟩, fork := 103 }

/-! ## A run with a default timeout of 0 -/

def negative_timeout_options : li_unit_runner_options :=
  { default_timeout := -1, parallelism := 1 }

def late_exit_options : li_unit_runner_options := { default_timeout := 1, parallelism := 1 }

/-- One admission at 1000 s (deadline 1001 s), a wait, the notification of the
worker's end, the worker reported at 1001.00006 s as exited with status 0, and
the end. -/
def late_exit_script : List Sys :=
  [ { spawn_clock := some ⟨1000, 0⟩, fork := 101 },
    { now := some ⟨1000, 1000⟩ },
    { read := 1 },
    { waitpid := 101, status := 0, reap_clock := some ⟨1001, 60000⟩ },
    {} ]

/-! ## A kill that fails -/

/-- One admission at 1000 s (deadline 1001 s), the scan at 1002 s with `kill`
failing, a notification, the worker reported as exited with status 0, and the
end. -/
def failed_kill_script : List Sys :=
  [ { spawn_clock := some ⟨1000, 0⟩, fork := 101 },
    { now := some ⟨1002, 0⟩, kill := -1 },
    { read := 1 },
    { waitpid := 101, status := 0, reap_clock := some ⟨1002, 500⟩ },
    {} ]

/-! ## A status report that is due -/

/-- The run starts at 1000.0005 s, so that the first report is due at
1015.0005 s. -/
def late_report_setup : Setup := { clock := some ⟨1000, 500000⟩ }

/-- One admission, and an iteration at 1016.0 s in which `pselect` fails with
`EINVAL`. -/
def late_report_script : List Sys :=
  [ { spawn_clock := some ⟨1000, 600000⟩, fork := 101 },
    { now := some ⟨1016, 0⟩, pselect := -1 } ]

/-! ## A run with a filter that rejects every test -/

def reject_all_options : li_unit_runner_options :=
  { default_timeout := 5, parallelism := 1, filter := some (fun _ => false) }

/-- One admission, a notification, the worker reported as exited with status 1,
and the end. -/
def reject_all_script : List Sys :=
  [ { spawn_clock := some ⟨1000, 0⟩, fork := 101 },
    { read := 1 },
    { waitpid := 101, status := 256, reap_clock := some ⟨1000, 5000⟩ },
    {} ]

/-! ## `unit/testlib.c` -/

/-- The number of values of a `size_t` (64 bits). -/
def SIZE_RANGE : Nat := 18446744073709551616

/-- The two file-scope counters of `testlib.c`. -/
structure testlib_state where
  successful_assertions : Nat := 0
  failed_assertions : Nat := 0
deriving DecidableEq

/-- The end of a worker process: the argument of `exit`, the argument of
`handle_test_exit`, and the counters it prints. -/
structure WorkerExit where
  status : Nat
  premature : Bool
  counters : testlib_state
deriving DecidableEq

def handle_test_exit (premature : Bool) (s : testlib_state) : WorkerExit :=
  { status := if s.failed_assertions ≠ 0 then 1 else 0
    premature := premature
    counters := s }

/-- The function returns (`Except.ok`) or ends the process (`Except.error`). -/
def _li_unit_test_assert (result : Bool) (s : testlib_state) :
    Except WorkerExit testlib_state :=
  if result then
    Except.ok { s with successful_assertions := (s.successful_assertions + 1) % SIZE_RANGE }
  else
    Except.error (handle_test_exit true
      { s with failed_assertions := (s.failed_assertions + 1) % SIZE_RANGE })

def _li_unit_test_expect (result : Bool) (s : testlib_state) : Bool × testlib_state :=
  if result then
    (result, { s with successful_assertions := (s.successful_assertions + 1) % SIZE_RANGE })
  else
    (result, { s with failed_assertions := (s.failed_assertions + 1) % SIZE_RANGE })

/-- The call `test->func()`: the checks evaluated, in order, and either the
counters when the body returns or the end of the process. -/
def call_func : List Check → testlib_state → List Check × Except WorkerExit testlib_state
  | [], s => ([], Except.ok s)
  | Check.ASSERT condition :: rest, s =>
    match _li_unit_test_assert condition s with
    | Except.error e => ([Check.ASSERT condition], Except.error e)
    | Except.ok s1 =>
      let r := call_func rest s1
      (Check.ASSERT condition :: r.1, r.2)
  | Check.EXPECT condition :: rest, s =>
    let r := call_func rest (_li_unit_test_expect condition s).2
    (Check.EXPECT condition :: r.1, r.2)

/-- The checks evaluated and the end of the process, `s` being the counters
when the function is entered. -/
def li_unit_run_test (test : li_unit_test) (s : testlib_state) : List Check × WorkerExit :=
  match call_func test.func s with
  | (evaluated, Except.error e) => (evaluated, e)
  | (evaluated, Except.ok s1) => (evaluated, handle_test_exit false s1)

/-- The value of the condition of a check. -/
def Check.condition : Check → Bool
  | Check.ASSERT condition => condition
  | Check.EXPECT condition => condition

/-- The checks of a body up to and including its first false `ASSERT`: the
checks that are evaluated when a false `ASSERT` ends the test at once. -/
def checks_until_failed_assert : List Check → List Check
  | [] => []
  | Check.ASSERT false :: _ => [Check.ASSERT false]
  | c :: rest => c :: checks_until_failed_assert rest

/-! ## `unit/runner_main.c` -/

/-- What `run_single_test_by_name` does: it returns a value, or the process
ends inside `li_unit_run_test`, which does not return. -/
inductive SingleTestResult
  | returned (value : Int)
  | exited (e : WorkerExit)
deriving DecidableEq

/-- The records whose callable was invoked, in order, and the result.
`li_unit_test_list` is the global list; `strcmp` returns 0 for equal names. -/
def run_single_test_by_name (li_unit_test_list : List li_unit_test) (name : String) :
    List li_unit_test × SingleTestResult :=
  match li_unit_test_list with
  | [] => ([], SingleTestResult.returned 1)
  | test :: rest =>
    if test.name = name then
      ([test], SingleTestResult.exited (li_unit_run_test test {}).2)
    else run_single_test_by_name rest name

/-! ## Test bodies used as examples -/

/-- A body with a false `EXPECT` in the middle and a false `ASSERT` before its
last check. -/
def example_body : List Check :=
  [Check.EXPECT true, Check.EXPECT false, Check.ASSERT true, Check.ASSERT false,
    Check.EXPECT true]

/-! ## `cmdline.h` -/

/-- The anonymous enum of `li_cmdline_action.type`, in declaration order. -/
inductive li_cmdline_action_type
  | LI_CMDLINE_STORE_TRUE
  | LI_CMDLINE_STORE_FALSE
  | LI_CMDLINE_HELP
  | LI_CMDLINE_STRING
  | LI_CMDLINE_SCANF
  | LI_CMDLINE_CALLBACK
deriving DecidableEq

open li_cmdline_action_type

/-- The integer value of an enumerator. -/
def li_cmdline_action_type.value : li_cmdline_action_type → Nat
  | LI_CMDLINE_STORE_TRUE => 0
  | LI_CMDLINE_STORE_FALSE => 1
  | LI_CMDLINE_HELP => 2
  | LI_CMDLINE_STRING => 3
  | LI_CMDLINE_SCANF => 4
  | LI_CMDLINE_CALLBACK => 5

/-- What the object a `dest` pointer points to holds: a `bool`, a
`const char *` (`none` is `NULL`; a string is the list of its characters before
the terminating NUL), or what `sscanf` or a callback has written. -/
inductive Value
  | flag (b : Bool)
  | string (s : Option (List Char))
  | scanned (n : Int)
deriving DecidableEq

/-- The objects actions write to, by address. -/
def Store : Type := Nat → Value

/-- The store after the assignment `*dest = v`. -/
def Store.write (store : Store) (dest : Nat) (v : Value) : Store :=
  fun d => if d = dest then v else store d

/-- The members of `struct li_cmdline_action`; `format` and `cb` are the two
members of its union. A callback gets the value and may write to the store. -/
structure li_cmdline_action where
  type : li_cmdline_action_type := LI_CMDLINE_STORE_TRUE
  format : List Char := []
  cb : Option (List Char) → Store → Bool × Store := fun _ store => (false, store)
  dest : Nat := 0

/-- A `shortopt` of NUL and a `longopt` of `none` (`NULL`) are those of the
entry that ends an array of options. -/
structure li_cmdline_option where
  shortopt : Char := Char.ofNat 0
  longopt : Option (List Char) := none
  help : Option (List Char) := none
  action : li_cmdline_action := {}

structure li_cmdline_argument where
  name : Option (List Char) := none
  help : Option (List Char) := none
  optional : Bool := false
  action : li_cmdline_action := {}

/-- The arrays `options` and `arguments` are the lists of their entries; the
empty list is also the `NULL` pointer. -/
structure li_cmdline where
  title : Option (List Char) := none
  help : Option (List Char) := none
  options : List li_cmdline_option := []
  arguments : List li_cmdline_argument := []

inductive li_cmdline_parse_result
  | LI_CMDLINE_EXIT_SUCCESS
  | LI_CMDLINE_EXIT_FAILURE
  | LI_CMDLINE_CONTINUE
deriving DecidableEq

open li_cmdline_parse_result

/-! ## `cmdline/cmdline.c` -/

/-- What a parse leaves: the value returned, the store, and what `*argv_out`
holds (`none` when it is `NULL` or `argv_out` itself is `NULL`). -/
structure ParseOutcome where
  result : li_cmdline_parse_result
  store : Store
  argv_out : Option (List (List Char))

/-- The file-scope `parse_error_message` and the `allocation_size` of
`li_cmdline_set_parse_error`: the size of the allocation the pointer points to
(`none` for `NULL`), the string stored in it, and the size remembered. -/
structure parse_error_state where
  allocated : Option Nat := none
  message : List Char := []
  allocation_size : Nat := 0
deriving DecidableEq

/-- The state after the call, `none` when `memcpy` writes through `NULL` or
past the end of the allocation. -/
def li_cmdline_set_parse_error (message : List Char) (s : parse_error_state) :
    Option parse_error_state :=
  let message_len := (message.length + 1) % SIZE_RANGE
  let s1 : parse_error_state :=
    if message_len < s.allocation_size then
      { s with allocated := some message_len, allocation_size := message_len }
    else s
  match s1.allocated with
  | none => none
  | some size =>
    if message_len ≤ size then some { s1 with message := message } else none

def is_opt (option : li_cmdline_option) : Bool :=
  option.shortopt ≠ Char.ofNat 0 || option.longopt.isSome

/-- The function `sscanf` of the C library is a parameter: for the value and
the format it gives the number returned and what it stores through the first
pointer, if anything. -/
def parse_from_format (sscanf : List Char → List Char → Int × Option Value)
    (format value : List Char) (dest : Nat) (store : Store) : Bool × Store :=
  let tmp_format := format ++ ['%', 'c']
  let r := sscanf value tmp_format
  let store1 :=
    match r.2 with
    | none => store
    | some v => store.write dest v
  (r.1 = 1, store1)

/-- The value is `none` for `NULL`; the result is `none` when `sscanf` is given
`NULL`. -/
def complete_action (sscanf : List Char → List Char → Int × Option Value)
    (action : li_cmdline_action) (value : Option (List Char)) (store : Store) :
    Option (Bool × Store) :=
  match action.type with
  | LI_CMDLINE_STORE_TRUE => some (true, store.write action.dest (Value.flag true))
  | LI_CMDLINE_STORE_FALSE => some (true, store.write action.dest (Value.flag false))
  | LI_CMDLINE_STRING => some (true, store.write action.dest (Value.string value))
  | LI_CMDLINE_SCANF =>
    match value with
    | none => none
    | some v => some (parse_from_format sscanf action.format v action.dest store)
  | LI_CMDLINE_CALLBACK => some (action.cb value store)
  | LI_CMDLINE_HELP => some (false, store)

/-- The element `argv[i]` of an array holding the strings of `argv` and then
`NULL`: `some none` is the `NULL`, `none` a read past it. -/
def argv_at (argv : List (List Char)) (i : Nat) : Option (Option (List Char)) :=
  if i < argv.length then some argv[i]?
  else if i = argv.length then some none
  else none

/-- The end of `argparse`, after its loop. -/
def argparse_end (argv_out : Bool) (argv : List (List Char)) (store : Store) :
    ParseOutcome :=
  if argv_out then
    { result := LI_CMDLINE_CONTINUE, store := store, argv_out := some argv }
  else if argv ≠ [] then
    { result := LI_CMDLINE_EXIT_FAILURE, store := store, argv_out := none }
  else { result := LI_CMDLINE_CONTINUE, store := store, argv_out := none }

/-- The loop of `argparse` from the entry `i` of `spec->arguments` on, the list
being the entries from that one on and `argv` the pointer as advanced so far. -/
def argparse_loop (sscanf : List Char → List Char → Int × Option Value)
    (argv_out : Bool) :
    List li_cmdline_argument → Nat → List (List Char) → Store → Option ParseOutcome
  | [], _, argv, store => some (argparse_end argv_out argv store)
  | argument :: arguments, i, argv, store =>
    match argument.name with
    | none => some (argparse_end argv_out argv store)
    | some _ =>
      match argv with
      | [] =>
        if argument.optional then
          some { result := LI_CMDLINE_CONTINUE, store := store, argv_out := none }
        else some { result := LI_CMDLINE_EXIT_FAILURE, store := store, argv_out := none }
      | _ :: argv_next =>
        match argv_at argv i with
        | none => none
        | some val =>
          match complete_action sscanf argument.action val store with
          | none => none
          | some (false, store1) =>
            some { result := LI_CMDLINE_EXIT_FAILURE, store := store1, argv_out := none }
          | some (true, store1) =>
            argparse_loop sscanf argv_out arguments (i + 1) argv_next store1

/-- The flag `argv_out` tells whether the pointer `argv_out` is not `NULL`. -/
def argparse (sscanf : List Char → List Char → Int × Option Value) (spec : li_cmdline)
    (argv_out : Bool) (argv : List (List Char)) (store : Store) : Option ParseOutcome :=
  argparse_loop sscanf argv_out spec.arguments 0 argv store

/-- The loop of `matchopt_long`; `none` when `strcmp` is given a `longopt` of
`NULL`. -/
def find_longopt : List li_cmdline_option → List Char → Option (Option li_cmdline_option)
  | [], _ => some none
  | option :: options, arg =>
    if !is_opt option then some none
    else
      match option.longopt with
      | none => none
      | some longopt =>
        if arg = longopt then some (some option) else find_longopt options arg

/-- The option found and `*val_out`. -/
def matchopt_long (spec : li_cmdline) (arg : List Char) :
    Option (Option li_cmdline_option × Option (List Char)) :=
  let name := arg.takeWhile (fun c => c ≠ '=')
  let val_out := if '=' ∈ arg then some ((arg.dropWhile (fun c => c ≠ '=')).drop 1) else none
  (find_longopt spec.options name).map (fun option => (option, val_out))

/-- The loop of `matchopt_short`. -/
def find_shortopt : List li_cmdline_option → Char → Option li_cmdline_option
  | [], _ => none
  | option :: options, c =>
    if !is_opt option then none
    else if c = option.shortopt then some option
    else find_shortopt options c

/-- The option found and `*val_out`. -/
def matchopt_short (spec : li_cmdline) (arg : List Char) :
    Option li_cmdline_option × Option (List Char) :=
  match arg with
  | [] => (none, none)
  | c :: rest => (find_shortopt spec.options c, if rest ≠ [] then some rest else none)

/-- The argument is not the empty string: `optparse` has seen its first
character. -/
def matchopt (spec : li_cmdline) (arg : List Char) :
    Option (Option li_cmdline_option × Option (List Char)) :=
  if arg.take 2 = ['-', '-'] then matchopt_long spec (arg.drop 2)
  else
    match arg with
    | [] => none
    | _ :: rest => some (matchopt_short spec rest)

/-- The body of `optparse` for an array whose first string is `flag`, `rest`
being `argv + 1`. The two tail calls `optparse(program_name, spec, argv + 1,
argv_out)` are arguments: `recurse` is the call when `argv` has not moved (it
parses `rest`), `recurse_next` the call after `argv++` has taken the value from
the next string (it parses the tail of `rest`, and is reached only when `rest`
is not empty). -/
def optparse_body (sscanf : List Char → List Char → Int × Option Value) (spec : li_cmdline)
    (argv_out : Bool) (flag : List Char) (rest : List (List Char)) (store : Store)
    (recurse recurse_next : Store → Option ParseOutcome) : Option ParseOutcome :=
  if flag.head? ≠ some '-' then argparse sscanf spec argv_out (flag :: rest) store
  else if flag = ['-', '-'] then argparse sscanf spec argv_out rest store
  else
    match matchopt spec flag with
    | none => none
    | some (none, _) =>
      some { result := LI_CMDLINE_EXIT_FAILURE, store := store, argv_out := none }
    | some (some option, val) =>
      if option.action.type = LI_CMDLINE_HELP then
        some { result := LI_CMDLINE_EXIT_SUCCESS, store := store, argv_out := none }
      else if option.action.type.value ≥ LI_CMDLINE_STRING.value then
        match val with
        | some v =>
          match complete_action sscanf option.action (some v) store with
          | none => none
          | some (false, store1) =>
            some { result := LI_CMDLINE_EXIT_FAILURE, store := store1, argv_out := none }
          | some (true, store1) => recurse store1
        | none =>
          match rest with
          | [] =>
            some { result := LI_CMDLINE_EXIT_FAILURE, store := store, argv_out := none }
          | v :: _ =>
            match complete_action sscanf option.action (some v) store with
            | none => none
            | some (false, store1) =>
              some { result := LI_CMDLINE_EXIT_FAILURE, store := store1, argv_out := none }
            | some (true, store1) => recurse_next store1
      else
        match val with
        | some _ =>
          some { result := LI_CMDLINE_EXIT_FAILURE, store := store, argv_out := none }
        | none =>
          match complete_action sscanf option.action none store with
          | none => none
          | some (false, store1) =>
            some { result := LI_CMDLINE_EXIT_FAILURE, store := store1, argv_out := none }
          | some (true, store1) => recurse store1

/-- The list holds the strings of `argv` before the `NULL` that ends it. -/
def optparse (sscanf : List Char → List Char → Int × Option Value) (spec : li_cmdline)
    (argv_out : Bool) : List (List Char) → Store → Option ParseOutcome
  | [], store => argparse sscanf spec argv_out [] store
  | [flag], store =>
    optparse_body sscanf spec argv_out flag [] store
      (optparse sscanf spec argv_out []) (optparse sscanf spec argv_out [])
  | flag :: v :: rest, store =>
    optparse_body sscanf spec argv_out flag (v :: rest) store
      (optparse sscanf spec argv_out (v :: rest)) (optparse sscanf spec argv_out rest)

/-- The list `argv` holds the strings before the `NULL` that ends the array;
`none` when there is no `argv[0]`. -/
def li_cmdline_parse (sscanf : List Char → List Char → Int × Option Value)
    (spec : li_cmdline) (argv : List (List Char)) (argv_out : Bool) (store : Store) :
    Option ParseOutcome :=
  match argv with
  | [] => none
  | _ :: rest => optparse sscanf spec argv_out rest store

/-! ## A command line used as an example -/

/-- The digits of a decimal number, read from the left. -/
def decimal_value : List Char → Nat → Option Nat
  | [], n => some n
  | c :: rest, n =>
    if c.isDigit then decimal_value rest (10 * n + (c.toNat - 48)) else none

/-- A stand-in for `sscanf` with the format `"%d%c"`: a string of digits gives
one conversion, anything else none. -/
def example_sscanf (value _format : List Char) : Int × Option Value :=
  match value with
  | [] => (-1, none)
  | _ :: _ =>
    match decimal_value value 0 with
    | some n => (1, some (Value.scanned n))
    | none => (0, none)

/-- The options of the tests `lithium.cmdline.shortopts`: `-t` with the format
`"%d"` and destination 0, `-T` storing true in destination 1, `-q` storing a
string in destination 2, and `-h`. -/
def example_spec : li_cmdline :=
  { options :=
      [ { shortopt := 't'
          action := { type := LI_CMDLINE_SCANF, format := ['%', 'd'], dest := 0 } },
        { shortopt := 'T', action := { type := LI_CMDLINE_STORE_TRUE, dest := 1 } },
        { shortopt := 'q', action := { type := LI_CMDLINE_STRING, dest := 2 } },
        { shortopt := 'h', action := { type := LI_CMDLINE_HELP } },
        {} ] }

/-- The variables before the parse: `t = -1`, `bigt = false`, `q = NULL`. -/
def example_store : Store :=
  fun d => if d = 0 then Value.scanned (-1) else if d = 1 then Value.flag false
    else Value.string none

/-- An option whose `shortopt` is `'-'`, and one positional argument. -/
def dash_spec : li_cmdline :=
  { options :=
      [ { shortopt := '-', longopt := some "dash".toList
          action := { type := LI_CMDLINE_STRING, dest := 0 } },
        {} ]
    arguments :=
      [ { name := some "file".toList, action := { type := LI_CMDLINE_STRING, dest := 1 } },
        {} ] }

/-! ## Invariants of the cursor and of the states -/

/-- The changes of state of a record in one iteration of a run. -/
def state_step (s s1 : TestState) : Prop :=
  (s = _LI_UNIT_NOT_STARTED ∧ s1 = _LI_UNIT_RUNNING)
    ∨ (s = _LI_UNIT_RUNNING ∧ (s1 = _LI_UNIT_SUCCEEDED ∨ s1 = _LI_UNIT_FAILED
        ∨ s1 = _LI_UNIT_PENDING_DEADLINE_EXCEEDED))
    ∨ (s = _LI_UNIT_PENDING_DEADLINE_EXCEEDED
        ∧ (s1 = _LI_UNIT_DEADLINE_EXCEEDED ∨ s1 = _LI_UNIT_SUCCEEDED))

/-! ## A killed worker that reports a normal exit -/

/-- One admission at 1000 s (deadline 1001 s), the scan at 1002 s, which kills
the worker, a notification, the worker reported as exited with status 0, and
the end. -/
def killed_exit_script : List Sys :=
  [ { spawn_clock := some ⟨1000, 0⟩, fork := 101 },
    { now := some ⟨1002, 0⟩ },
    { read := 1 },
    { waitpid := 101, status := 0, reap_clock := some ⟨1002, 500⟩ },
    {} ]

/-- The state of the example run after its first two iterations: two workers
running, the third record not admitted. -/
def example_two_admitted : Runner :=
  (test_runner_iterate example_options { spawn_clock := some ⟨1000, 600⟩, fork := 102 }
    (test_runner_iterate example_options { spawn_clock := some ⟨1000, 500⟩, fork := 101 }
      (initial_state example_options example_list ⟨1000, 0⟩)).2).2

/-- The first worker of `example_two_admitted` reported as exited with status
1. -/
def example_reap : Sys :=
  { waitpid := 101, status := 256, reap_clock := some ⟨1001, 100⟩ }

/-- The first record of `example_two_admitted`. -/
def example_record_before : li_unit_test :=
  example_two_admitted.test_list.getD 0 {}

/-- The same record after the iteration that reaps its worker. -/
def example_record_after : li_unit_test :=
  (test_runner_iterate example_options example_reap example_two_admitted).2.test_list.getD 0 {}

/-! ## A pid reported for a record that has ended -/

/-- A state with nothing running: the only record has ended in
`_LI_UNIT_SUCCEEDED` and still holds the pid of its worker, 101. -/
def example_terminal : Runner :=
  { test_list :=
      [ { name := "lithium.example.passes", state := _LI_UNIT_SUCCEEDED, pid := 101,
          has_deadline := true, start_time := ⟨1000, 500⟩, elapsed_time := ⟨0, 600⟩,
          deadline := ⟨1005, 500⟩ } ]
    completed_tests := 1
    total_tests := 1
    running_jobs := 0
    status_update_deadline := ⟨1015, 0⟩
    remaining_tests := 1
    forked := [101] }

/-! ## A `fork` that fails -/

/-- The first admission of the example run, with `fork` failing. -/
def failed_fork : Sys := { spawn_clock := some ⟨1000, 500⟩, fork := -1 }

/-! ## The deadline chosen for the wait -/

/-- The deadline `next_deadline` points to when the `for` loop of
`test_runner_iterate` has ended without finding a record past its deadline. -/
def chosen_next_deadline (now : Timespec) (w : Runner) : Timespec :=
  match scan_deadlines now (w.test_list.take w.remaining_tests) 0
      w.status_update_deadline with
  | ScanResult.next_deadline t => t
  | ScanResult.expired _ => w.status_update_deadline

/-- A default timeout of 20 s, longer than the 15 s between status reports. -/
def long_timeout_options : li_unit_runner_options := { default_timeout := 20, parallelism := 1 }

/-- A record admitted at 1000.0006 s with its deadline at 1020.0006 s. -/
def late_report_record : li_unit_test :=
  { name := "lithium.example.sleeps", state := _LI_UNIT_RUNNING, pid := 101,
    has_deadline := true, start_time := ⟨1000, 600000⟩, deadline := ⟨1020, 600000⟩ }

/-- A run started at 1000.0005 s: one worker running, and the first status
report due at 1015.0005 s. -/
def late_report_running : Runner :=
  { test_list := [late_report_record]
    total_tests := 1
    running_jobs := 1
    status_update_deadline := ⟨1015, 500000⟩
    remaining_tests := 1
    children := [101]
    forked := [101] }

/-! ## Two tests with one name -/

/-- A registry in which two records have the name `"lithium.example.twice"`:
the body of the first passes, the body of the second fails. -/
def duplicate_list : List li_unit_test :=
  [ { name := "lithium.example.other", func := [Check.EXPECT true] },
    { name := "lithium.example.twice", func := [Check.EXPECT true, Check.ASSERT true] },
    { name := "lithium.example.twice", func := [Check.ASSERT false] } ]

/-! ## Positional arguments -/

/-- The entry of `spec->arguments` for a required argument stored as a string
in the destination `dest`. -/
def string_argument (name : List Char) (dest : Nat) : li_cmdline_argument :=
  { name := some name, action := { type := LI_CMDLINE_STRING, dest := dest } }

/-- A specification with one, two or three positional arguments, stored in the
destinations 0, 1 and 2. -/
def positional_spec (n : Nat) : li_cmdline :=
  { arguments :=
      ([string_argument ['s', 'r', 'c'] 0, string_argument ['d', 's', 't'] 1,
        string_argument ['l', 'o', 'g'] 2].take n) ++ [{}] }

/-- Every destination holds the string `"unset"` before the parse. -/
def unset_store : Store := fun _ => Value.string (some ['u', 'n', 's', 'e', 't'])

/-! ## A pid handed out a second time -/

/-- What the operating system guarantees about the pids of one iteration: in
the runner `fork` does not return 0, it returns no pid of a worker forked and
not yet waited for, and `waitpid` reports only such a worker. The pid of a
worker that has been waited for may be returned again. -/
def Sys.os_valid (sys : Sys) (w : Runner) : Prop :=
  sys.fork ≠ 0 ∧ (0 < sys.fork → sys.fork ∉ w.children)
    ∧ (0 < sys.waitpid → sys.waitpid ∈ w.children)

instance Sys.os_valid_decidable (sys : Sys) (w : Runner) : Decidable (sys.os_valid w) :=
  inferInstanceAs (Decidable (sys.fork ≠ 0 ∧ (0 < sys.fork → sys.fork ∉ w.children)
    ∧ (0 < sys.waitpid → sys.waitpid ∈ w.children)))

/-- The oracles of `script` respect `Sys.os_valid` along the loop started in `w`. -/
def os_script_valid (options : li_unit_runner_options) : List Sys → Runner → Prop
  | [], _ => True
  | sys :: rest, w =>
    sys.os_valid w
    ∧ ((test_runner_iterate options sys w).1 = TEST_RUNNER_ITERATE_AGAIN →
        os_script_valid options rest (test_runner_iterate options sys w).2)

instance os_script_valid_decidable (options : li_unit_runner_options) :
    (script : List Sys) → (w : Runner) → Decidable (os_script_valid options script w)
  | [], _ => inferInstanceAs (Decidable True)
  | sys :: rest, w =>
    have := os_script_valid_decidable options rest (test_runner_iterate options sys w).2
    inferInstanceAs (Decidable (sys.os_valid w
      ∧ ((test_runner_iterate options sys w).1 = TEST_RUNNER_ITERATE_AGAIN →
          os_script_valid options rest (test_runner_iterate options sys w).2)))

/-- Two tests run one after the other. -/
def reused_pid_list : List li_unit_test :=
  [ { name := "lithium.example.passes" }, { name := "lithium.example.fails" } ]

/-- The first worker gets the pid 101 and is reported as exited with status 0;
the second worker, forked after that, gets the pid 101 again and is reported as
exited with status 1; then the iteration that finds nothing left. -/
def reused_pid_script : List Sys :=
  [ { spawn_clock := some ⟨1000, 0⟩, fork := 101 },
    { read := 1 },
    { waitpid := 101, status := 0, reap_clock := some ⟨1000, 5000⟩ },
    { spawn_clock := some ⟨1000, 6000⟩, fork := 101 },
    { read := 1 },
    { waitpid := 101, status := 256, reap_clock := some ⟨1000, 9000⟩ },
    {} ]

/-- The state of that run after its first five iterations: the first worker has
been waited for, the second is running. -/
def reused_pid_before : Runner :=
  (reused_pid_script.take 5).foldl
    (fun w sys => (test_runner_iterate (default_options example_setup late_exit_options)
      sys w).2)
    (initial_state (default_options example_setup late_exit_options) reused_pid_list
      ⟨1000, 0⟩)

/-! # Theorems -/

/-! ## Lemmas on the search by pid -/

theorem find_test_some {l : List li_unit_test} {pid : Int} {i : Nat} {t : li_unit_test}
    (h : find_test l pid = some (i, t)) :
    l[i]? = some t ∧ t.pid = pid ∧ i < l.length := by
  induction l generalizing i with
  | nil => simp [find_test] at h
  | cons a l ih =>
    unfold find_test at h
    split at h
    · rename_i ha
      simp only [Option.some.injEq, Prod.mk.injEq] at h
      obtain ⟨rfl, rfl⟩ := h
      simp [ha]
    · cases hf : find_test l pid with
      | none => simp [hf] at h
      | some r =>
        obtain ⟨j, u⟩ := r
        simp only [hf, Option.map_some', Option.some.injEq, Prod.mk.injEq] at h
        obtain ⟨rfl, rfl⟩ := h
        have := ih hf
        simpa using this

/-! ## Lemmas on the count of failures -/

theorem count_failures_fst (l : List li_unit_test) (f n : Nat) :
    (count_failures l f n).1 % UINT_RANGE = (f + l.countP hard_failure) % UINT_RANGE := by
  induction l generalizing f n with
  | nil => simp [count_failures]
  | cons t l ih =>
    unfold count_failures
    by_cases hs : t.state = _LI_UNIT_SUCCEEDED
    · simp [hs, ih, hard_failure]
    · by_cases hi : t.options.informational = true
      · simp [hs, hi, ih, hard_failure]
      · simp only [ne_eq, hs, not_false_eq_true, ↓reduceIte, hi, Bool.false_eq_true, ih]
        have : hard_failure t = true := by simp [hard_failure, hs, hi]
        rw [List.countP_cons_of_pos _ _ this]
        unfold UINT_RANGE
        omega

theorem count_failures_lt (l : List li_unit_test) (f n : Nat) (hf : f < UINT_RANGE) :
    (count_failures l f n).1 < UINT_RANGE := by
  induction l generalizing f n with
  | nil => simpa [count_failures] using hf
  | cons t l ih =>
    unfold count_failures
    split
    · split
      · exact ih _ _ hf
      · exact ih _ _ (Nat.mod_lt _ (by decide))
    · exact ih _ _ hf

theorem count_failures_filter (l : List li_unit_test) (f n m : Nat) :
    (count_failures l f n).1
      = (count_failures (l.filter (fun t => !t.options.informational)) f m).1 := by
  induction l generalizing f n m with
  | nil => simp [count_failures]
  | cons t l ih =>
    by_cases hi : t.options.informational = true
    · simp only [List.filter_cons, hi, Bool.not_true, Bool.false_eq_true, ↓reduceIte]
      simp only [count_failures, hi, ↓reduceIte]
      split
      · exact ih _ _ _
      · exact ih _ _ _
    · simp only [Bool.not_eq_true] at hi
      simp only [List.filter_cons, hi, Bool.not_false, ↓reduceIte]
      simp only [count_failures, hi, Bool.false_eq_true, ↓reduceIte]
      split
      · exact ih _ _ _
      · exact ih _ _ _

theorem exit_status_eq_one_iff (l : List li_unit_test) (hlen : l.length < UINT_RANGE) :
    exit_status l = 1
      ↔ ∃ t ∈ l, t.options.informational = false ∧ t.state ≠ _LI_UNIT_SUCCEEDED := by
  have h1 := count_failures_fst l 0 0
  have h2 := count_failures_lt l 0 0 (by decide)
  have h3 : l.countP hard_failure ≤ l.length := List.countP_le_length _
  rw [Nat.mod_eq_of_lt h2, Nat.zero_add, Nat.mod_eq_of_lt (by omega)] at h1
  have h4 : 0 < l.countP hard_failure
      ↔ ∃ t ∈ l, t.options.informational = false ∧ t.state ≠ _LI_UNIT_SUCCEEDED := by
    rw [List.countP_pos_iff]
    simp [hard_failure]
  rw [← h4, ← h1]
  unfold exit_status
  split <;> simp_all

theorem exit_status_cases (l : List li_unit_test) : exit_status l = 0 ∨ exit_status l = 1 := by
  unfold exit_status
  split <;> simp

/-! ## The result of a run -/

/-- C1: when `li_unit_run_tests` returns after its loop has left normally (any
other return value is -1), on a list short enough for the `unsigned int`
counters, it returns 1 if and only if some record that is not informational is
in a state other than `_LI_UNIT_SUCCEEDED`, and 0 otherwise; the result is the
one of the list without its informational records. -/
theorem li_unit_run_tests_result (setup : Setup) (li_unit_test_list : List li_unit_test)
    (options : li_unit_runner_options) (test_list : List li_unit_test)
    (script : List Sys) (r : Int) (w : Runner)
    (hrun : li_unit_run_tests setup li_unit_test_list options test_list script = some (r, w))
    (hnormal : r ≠ -1) (hlen : w.test_list.length < UINT_RANGE) :
    (∃ clock, run_loop (default_options setup options) script
        (initial_state (default_options setup options)
          (if test_list.isEmpty then li_unit_test_list else test_list) clock)
        = some (TEST_RUNNER_ITERATE_SUCCESS, w))
    ∧ (r = 1 ↔ ∃ t ∈ w.test_list,
        t.options.informational = false ∧ t.state ≠ _LI_UNIT_SUCCEEDED)
    ∧ (r = 0 ↔ ¬ ∃ t ∈ w.test_list,
        t.options.informational = false ∧ t.state ≠ _LI_UNIT_SUCCEEDED)
    ∧ r = exit_status (w.test_list.filter (fun t => !t.options.informational)) := by
  have key : (∃ clock, run_loop (default_options setup options) script
        (initial_state (default_options setup options)
          (if test_list.isEmpty then li_unit_test_list else test_list) clock)
        = some (TEST_RUNNER_ITERATE_SUCCESS, w)) ∧ r = exit_status w.test_list := by
    unfold li_unit_run_tests at hrun
    simp only at hrun
    generalize (if test_list.isEmpty = true then li_unit_test_list else test_list) = tl
      at hrun ⊢
    repeat' split at hrun
    all_goals first
      | (simp only [Option.some.injEq, Prod.mk.injEq] at hrun
         exact absurd hrun.1.symm hnormal)
      | (simp only [reduceCtorEq] at hrun)
      | (simp only [Option.some.injEq, Prod.mk.injEq] at hrun
         obtain ⟨rfl, rfl⟩ := hrun
         exact ⟨⟨_, by assumption⟩, rfl⟩)
  obtain ⟨hloop, hr⟩ := key
  have h1 := exit_status_eq_one_iff w.test_list hlen
  refine ⟨hloop, ?_, ?_, ?_⟩
  · rw [hr]; exact h1
  · rw [hr, ← h1]
    rcases exit_status_cases w.test_list with h | h <;> simp [h]
  · rw [hr]
    unfold exit_status
    rw [count_failures_filter w.test_list 0 0 0]

theorem li_unit_run_tests_result_witness :
    li_unit_run_tests example_setup [] example_options example_list example_script
        = some (1, example_final)
      ∧ ((1 : Int) = 1 ↔ ∃ t ∈ example_final.test_list,
          t.options.informational = false ∧ t.state ≠ _LI_UNIT_SUCCEEDED) :=
  ⟨by rfl,
    (li_unit_run_tests_result example_setup [] example_options example_list example_script
      1 example_final (by rfl) (by decide) (by decide)).2.1⟩

/-! ## Reaping -/

theorem handle_waitpid_found (pid : Int) (status : Nat) (sys : Sys) (w : Runner)
    (now : Timespec) (i : Nat) (test : li_unit_test)
    (hclock : sys.reap_clock = some now)
    (hfound : find_test w.test_list pid = some (i, test)) :
    (handle_waitpid pid status sys w).1 = 0
    ∧ ((handle_waitpid pid status sys w).2.test_list[i]?).map (fun t => t.state)
        = some (if WIFEXITED status = true ∧ WEXITSTATUS status = 0 then _LI_UNIT_SUCCEEDED
            else if test.state = _LI_UNIT_PENDING_DEADLINE_EXCEEDED then
              _LI_UNIT_DEADLINE_EXCEEDED
            else _LI_UNIT_FAILED) := by
  obtain ⟨hget, hpid, hlt⟩ := find_test_some hfound
  constructor
  · simp [handle_waitpid, hclock, hfound, TestState.value]
  · simp only [handle_waitpid, hclock, hfound, TestState.value]
    simp only [ne_eq, OfNat.ofNat_ne_zero, not_false_eq_true, or_true, not_true_eq_false,
      ↓reduceIte, List.getElem?_set_self hlt, Option.map_some', Option.some.injEq]
    split_ifs <;> rfl

/-- C2: when `handle_waitpid` has its clock reading and finds a record for the
pid (the first record of the list with that pid), it returns 0 and the record's
new state is `_LI_UNIT_SUCCEEDED` if the worker exited normally with status 0,
otherwise `_LI_UNIT_DEADLINE_EXCEEDED` if the record was in
`_LI_UNIT_PENDING_DEADLINE_EXCEEDED` before the call, otherwise `_LI_UNIT_FAILED`;
in particular an exit with status 0 gives `_LI_UNIT_SUCCEEDED` whatever the state
before. -/
theorem handle_waitpid_state (pid : Int) (status : Nat) (sys : Sys) (w : Runner)
    (now : Timespec) (i : Nat) (test : li_unit_test)
    (hclock : sys.reap_clock = some now)
    (hfound : find_test w.test_list pid = some (i, test)) :
    w.test_list[i]? = some test ∧ test.pid = pid
    ∧ (handle_waitpid pid status sys w).1 = 0
    ∧ ((handle_waitpid pid status sys w).2.test_list[i]?).map (fun t => t.state)
        = some (if WIFEXITED status = true ∧ WEXITSTATUS status = 0 then _LI_UNIT_SUCCEEDED
            else if test.state = _LI_UNIT_PENDING_DEADLINE_EXCEEDED then
              _LI_UNIT_DEADLINE_EXCEEDED
            else _LI_UNIT_FAILED)
    ∧ (WIFEXITED status = true → WEXITSTATUS status = 0 →
        ((handle_waitpid pid status sys w).2.test_list[i]?).map (fun t => t.state)
          = some _LI_UNIT_SUCCEEDED) := by
  obtain ⟨hget, hpid, -⟩ := find_test_some hfound
  obtain ⟨hret, hstate⟩ := handle_waitpid_found pid status sys w now i test hclock hfound
  refine ⟨hget, hpid, hret, hstate, ?_⟩
  intro h1 h2
  rw [hstate]
  simp [h1, h2]

theorem handle_waitpid_state_witness :
    (find_test example_running.test_list 102).map (fun r => r.1) = some 1
      ∧ ((handle_waitpid 102 9 {} example_running).2.test_list[1]?).map
          (fun t => t.state) = some _LI_UNIT_DEADLINE_EXCEEDED :=
  ⟨by decide,
    (handle_waitpid_state 102 9 {} example_running ⟨0, 0⟩ 1
      { name := "lithium.example.flaky", options := { informational := true },
        state := _LI_UNIT_PENDING_DEADLINE_EXCEEDED, pid := 102,
        has_deadline := true, start_time := ⟨1000, 600⟩, deadline := ⟨1005, 600⟩ }
      rfl (by decide)).2.2.2.1⟩

/-! ## Admission -/

theorem wrap_int_of_range (x : Int) (h1 : -2147483648 ≤ x) (h2 : x ≤ INT_MAX) :
    wrap_int x = x := by
  unfold wrap_int
  unfold INT_MAX at h2
  omega

/-- C3: when `spawn_test` admits a record (returns 0) with default timeout `d`,
the record's multiplier being `m` and `m1` standing for 1 if `m = 0` and for `m`
otherwise: the record has a deadline if and only if `m1 > 0` and `d > 0`; in that
case, the product `m1 * d` being an `int`, the deadline is the start time plus
`m1 * d` seconds, with the nanosecond field of the start time; and for negative
`m` the record has no deadline, whatever `d` is. -/
theorem spawn_test_deadline (d : Int) (sys : Sys) (w : Runner)
    (hadmitted : (spawn_test d sys w).1 = 0) :
    ∃ (test admitted : li_unit_test) (start : Timespec),
      w.test_list[w.remaining_tests]? = some test
      ∧ (spawn_test d sys w).2.test_list[w.remaining_tests]? = some admitted
      ∧ sys.spawn_clock = some start ∧ admitted.start_time = start
      ∧ admitted.state = _LI_UNIT_RUNNING
      ∧ (admitted.has_deadline = true ↔
          (0 < (if test.options.timeout_multiplier = 0 then 1
              else test.options.timeout_multiplier) ∧ 0 < d))
      ∧ (0 < (if test.options.timeout_multiplier = 0 then 1
              else test.options.timeout_multiplier) → 0 < d →
          (if test.options.timeout_multiplier = 0 then 1
              else test.options.timeout_multiplier) * d ≤ INT_MAX →
          admitted.deadline =
            { tv_sec := start.tv_sec
                + (if test.options.timeout_multiplier = 0 then 1
                    else test.options.timeout_multiplier) * d
              tv_nsec := start.tv_nsec })
      ∧ (test.options.timeout_multiplier < 0 → admitted.has_deadline = false) := by
  unfold spawn_test at hadmitted ⊢
  cases hget : w.test_list[w.remaining_tests]? with
  | none => simp [hget] at hadmitted
  | some test =>
    have hlt : w.remaining_tests < w.test_list.length := by
      by_contra hge
      rw [List.getElem?_eq_none (by omega)] at hget
      simp at hget
    simp only [hget] at hadmitted ⊢
    by_cases hst : test.state = _LI_UNIT_NOT_STARTED
    · simp only [hst, ne_eq, not_true_eq_false, ↓reduceIte] at hadmitted ⊢
      cases hclock : sys.spawn_clock with
      | none => simp [hclock] at hadmitted
      | some start =>
        simp only [hclock] at hadmitted ⊢
        by_cases hfork : sys.fork < 0
        · simp [hfork] at hadmitted
        · simp only [hfork, ↓reduceIte, List.getElem?_set_self hlt]
          refine ⟨test, _, start, rfl, rfl, rfl, ?_, ?_, ?_, ?_, ?_⟩
          · split_ifs <;> rfl
          · split_ifs <;> rfl
          · split_ifs with h1 h2 <;> simp_all
          · generalize (if test.options.timeout_multiplier = 0 then (1 : Int)
              else test.options.timeout_multiplier) = m1
            intro hm hd hmax
            have hw := wrap_int_of_range (m1 * d) (by nlinarith) hmax
            rw [if_pos ⟨hm, hd⟩, hw]
          · intro hneg
            have h0 : test.options.timeout_multiplier ≠ 0 := by omega
            simp only [h0, ↓reduceIte]
            rw [if_neg (by omega)]
    · simp [hst] at hadmitted

theorem spawn_test_deadline_witness :
    (spawn_test 5 example_admission example_running).1 = 0
    ∧ ∃ (test admitted : li_unit_test) (start : Timespec),
      example_running.test_list[example_running.remaining_tests]? = some test
      ∧ (spawn_test 5 example_admission example_running).2.test_list[
          example_running.remaining_tests]? = some admitted
      ∧ example_admission.spawn_clock = some start ∧ admitted.start_time = start
      ∧ admitted.state = _LI_UNIT_RUNNING
      ∧ (admitted.has_deadline = true ↔
          (0 < (if test.options.timeout_multiplier = 0 then 1
              else test.options.timeout_multiplier) ∧ 0 < (5 : Int)))
      ∧ (0 < (if test.options.timeout_multiplier = 0 then 1
              else test.options.timeout_multiplier) → 0 < (5 : Int) →
          (if test.options.timeout_multiplier = 0 then 1
              else test.options.timeout_multiplier) * 5 ≤ INT_MAX →
          admitted.deadline =
            { tv_sec := start.tv_sec
                + (if test.options.timeout_multiplier = 0 then 1
                    else test.options.timeout_multiplier) * 5
              tv_nsec := start.tv_nsec })
      ∧ (test.options.timeout_multiplier < 0 → admitted.has_deadline = false) :=
  ⟨by decide, spawn_test_deadline 5 example_admission example_running (by decide)⟩

/-! ## The shape of one step -/

theorem spawn_test_shape (d : Int) (sys : Sys) (w : Runner) :
    spawn_test d sys w = (-1, w)
    ∨ ∃ test admitted : li_unit_test,
        w.test_list[w.remaining_tests]? = some test
        ∧ test.state = _LI_UNIT_NOT_STARTED
        ∧ admitted.state = _LI_UNIT_RUNNING
        ∧ admitted.options = test.options
        ∧ (spawn_test d sys w = (-1, { w with
              test_list := w.test_list.set w.remaining_tests admitted
              remaining_tests := w.remaining_tests + 1
              running_jobs := wrap_int (w.running_jobs + 1) })
          ∨ (¬ sys.fork < 0 ∧ admitted.pid = sys.fork
              ∧ (admitted.has_deadline = true → 0 < d)
              ∧ spawn_test d sys w = (0, { w with
                  test_list := w.test_list.set w.remaining_tests admitted
                  remaining_tests := w.remaining_tests + 1
                  running_jobs := wrap_int (w.running_jobs + 1)
                  children := sys.fork :: w.children
                  forked := sys.fork :: w.forked }))) := by
  unfold spawn_test
  cases hget : w.test_list[w.remaining_tests]? with
  | none => left; rfl
  | some test =>
    by_cases hst : test.state = _LI_UNIT_NOT_STARTED
    · simp only [hst, ne_eq, not_true_eq_false, ↓reduceIte]
      right
      cases hclock : sys.spawn_clock with
      | none =>
        exact ⟨test, { test with state := _LI_UNIT_RUNNING }, rfl, hst, rfl, rfl, Or.inl rfl⟩
      | some start =>
        by_cases hfork : sys.fork < 0
        · refine ⟨test, { test with state := _LI_UNIT_RUNNING, start_time := start },
            rfl, hst, rfl, rfl, Or.inl ?_⟩
          simp only [hfork, ↓reduceIte]
        · by_cases hd : (if test.options.timeout_multiplier = 0 then (1 : Int)
              else test.options.timeout_multiplier) > 0 ∧ d > 0
          · refine ⟨test, { test with
                state := _LI_UNIT_RUNNING, start_time := start, pid := sys.fork
                has_deadline := true
                deadline :=
                  { tv_nsec := start.tv_nsec
                    tv_sec := start.tv_sec
                      + wrap_int ((if test.options.timeout_multiplier = 0 then (1 : Int)
                          else test.options.timeout_multiplier) * d) } },
              rfl, hst, rfl, rfl, Or.inr ⟨hfork, rfl, fun _ => hd.2, ?_⟩⟩
            simp only [hfork, ↓reduceIte, hd, and_self]
          · refine ⟨test, { test with
                state := _LI_UNIT_RUNNING, start_time := start, pid := sys.fork
                has_deadline := false },
              rfl, hst, rfl, rfl, Or.inr ⟨hfork, rfl, ?_, ?_⟩⟩
            · intro h
              simp at h
            · simp only [hfork, ↓reduceIte, hd]
    · left; simp [hst]

theorem handle_waitpid_shape (pid : Int) (status : Nat) (sys : Sys) (w : Runner) :
    handle_waitpid pid status sys w = (-1, w)
    ∨ ∃ (i : Nat) (test reaped : li_unit_test),
        find_test w.test_list pid = some (i, test)
        ∧ (reaped.state = _LI_UNIT_SUCCEEDED ∨ reaped.state = _LI_UNIT_FAILED
            ∨ reaped.state = _LI_UNIT_DEADLINE_EXCEEDED)
        ∧ reaped.pid = test.pid ∧ reaped.has_deadline = test.has_deadline
        ∧ reaped.options = test.options
        ∧ handle_waitpid pid status sys w = (0, { w with
            running_jobs := wrap_int (w.running_jobs - 1)
            completed_tests := (w.completed_tests + 1) % UINT_RANGE
            test_list := w.test_list.set i reaped }) := by
  unfold handle_waitpid
  cases hclock : sys.reap_clock with
  | none => left; rfl
  | some now =>
    cases hfind : find_test w.test_list pid with
    | none => left; rfl
    | some r =>
      obtain ⟨i, test⟩ := r
      right
      simp only [TestState.value, ne_eq, OfNat.ofNat_ne_zero, not_false_eq_true, or_true,
        not_true_eq_false, ↓reduceIte]
      refine ⟨i, test, _, rfl, ?_, ?_, ?_, ?_, rfl⟩
      · split_ifs <;> simp
      · split_ifs <;> rfl
      · split_ifs <;> rfl
      · split_ifs <;> rfl

theorem handle_deadline_shape (i : Nat) (sys : Sys) (w : Runner) :
    (handle_deadline i sys w).2 = w
    ∨ ∃ test : li_unit_test, w.test_list[i]? = some test
        ∧ ((handle_deadline i sys w).2
              = { w with events := Event.kill test.pid sys.kill :: w.events }
          ∨ (handle_deadline i sys w).2 = { w with
              events := Event.kill test.pid sys.kill :: w.events
              test_list := w.test_list.set i
                { test with state := _LI_UNIT_PENDING_DEADLINE_EXCEEDED } }) := by
  unfold handle_deadline
  cases hget : w.test_list[i]? with
  | none => left; rfl
  | some test =>
    right
    refine ⟨test, rfl, ?_⟩
    by_cases hk : sys.kill < 0
    · left; simp [hk]
    · right; simp [hk]

/-- A property of the result of `test_runner_iterate` follows from the same
property of each of its nine ways out. -/
theorem test_runner_iterate_cases (options : li_unit_runner_options) (sys : Sys)
    (w : Runner) (P : IterateResult → Runner → Prop)
    (h_done : w.running_jobs = 0 → w.test_list.length ≤ w.remaining_tests →
      P TEST_RUNNER_ITERATE_SUCCESS w)
    (h_spawn : to_unsigned w.running_jobs < options.parallelism →
      w.remaining_tests < w.test_list.length →
      P (if (spawn_test options.default_timeout sys w).1 < 0 then TEST_RUNNER_ITERATE_FAILURE
          else TEST_RUNNER_ITERATE_AGAIN) (spawn_test options.default_timeout sys w).2)
    (h_read : P TEST_RUNNER_ITERATE_AGAIN w)
    (h_waitpid_failed : P TEST_RUNNER_ITERATE_FAILURE w)
    (h_reap : 0 < sys.waitpid →
      P (if (handle_waitpid sys.waitpid sys.status sys
              { w with children := w.children.erase sys.waitpid }).1 < 0
          then TEST_RUNNER_ITERATE_FAILURE else TEST_RUNNER_ITERATE_AGAIN)
        (handle_waitpid sys.waitpid sys.status sys
          { w with children := w.children.erase sys.waitpid }).2)
    (h_status : P (if (handle_status_update options.status_update_frequency sys w).1 < 0
          then TEST_RUNNER_ITERATE_FAILURE else TEST_RUNNER_ITERATE_AGAIN)
        (handle_status_update options.status_update_frequency sys w).2)
    (h_kill : ∀ now i, sys.now = some now →
      scan_deadlines now (w.test_list.take w.remaining_tests) 0 w.status_update_deadline
        = ScanResult.expired i →
      P TEST_RUNNER_ITERATE_AGAIN (handle_deadline i sys w).2)
    (h_wait : ∀ now next_deadline, sys.now = some now →
      scan_deadlines now (w.test_list.take w.remaining_tests) 0 w.status_update_deadline
        = ScanResult.next_deadline next_deadline →
      P (if sys.pselect < 0 ∧ sys.errno_is_EINTR = false then TEST_RUNNER_ITERATE_FAILURE
          else TEST_RUNNER_ITERATE_AGAIN)
        { w with events :=
            Event.pselect (li_util_timespec_subtract next_deadline now) :: w.events }) :
    P (test_runner_iterate options sys w).1 (test_runner_iterate options sys w).2 := by
  unfold test_runner_iterate
  by_cases h1 : w.running_jobs = 0 ∧ w.test_list.length ≤ w.remaining_tests
  · rw [if_pos h1]
    exact h_done h1.1 h1.2
  rw [if_neg h1]
  by_cases h2 : to_unsigned w.running_jobs < options.parallelism
      ∧ w.remaining_tests < w.test_list.length
  · rw [if_pos h2]
    have := h_spawn h2.1 h2.2
    dsimp only
    by_cases hr : (spawn_test options.default_timeout sys w).1 < 0
    · rw [if_pos hr] at this ⊢
      exact this
    · rw [if_neg hr] at this ⊢
      exact this
  rw [if_neg h2]
  by_cases h3 : sys.read > 0
  · rw [if_pos h3]
    exact h_read
  rw [if_neg h3]
  by_cases h4 : sys.waitpid < 0
  · rw [if_pos h4]
    exact h_waitpid_failed
  rw [if_neg h4]
  by_cases h5 : sys.waitpid > 0
  · rw [if_pos h5]
    have := h_reap h5
    dsimp only
    by_cases hr : (handle_waitpid sys.waitpid sys.status sys
        { w with children := w.children.erase sys.waitpid }).1 < 0
    · rw [if_pos hr] at this ⊢
      exact this
    · rw [if_neg hr] at this ⊢
      exact this
  rw [if_neg h5]
  cases hnow : sys.now with
  | none => exact h_waitpid_failed
  | some now =>
    dsimp only
    by_cases h6 : now.tv_sec ≥ w.status_update_deadline.tv_sec
        ∧ now.tv_nsec ≥ w.status_update_deadline.tv_nsec
    · rw [if_pos h6]
      have := h_status
      by_cases hr : (handle_status_update options.status_update_frequency sys w).1 < 0
      · rw [if_pos hr] at this ⊢
        exact this
      · rw [if_neg hr] at this ⊢
        exact this
    rw [if_neg h6]
    cases hscan : scan_deadlines now (w.test_list.take w.remaining_tests) 0
        w.status_update_deadline with
    | expired i => exact h_kill now i hnow hscan
    | next_deadline nd =>
      have := h_wait now nd hnow hscan
      dsimp only
      by_cases hp : sys.pselect < 0
      · by_cases he : sys.errno_is_EINTR = true
        · simp only [hp, he, ↓reduceIte, Bool.true_eq_false, and_false] at this ⊢
          exact this
        · simp only [Bool.not_eq_true] at he
          simp only [hp, he, ↓reduceIte, and_self, Bool.false_eq_true] at this ⊢
          exact this
      · simp only [hp, ↓reduceIte, false_and] at this ⊢
        exact this

theorem handle_status_update_shape (f : Nat) (sys : Sys) (w : Runner) :
    ∃ t : Timespec, (handle_status_update f sys w).2
      = { w with events := Event.status_update :: w.events, status_update_deadline := t } := by
  unfold handle_status_update
  cases sys.status_clock with
  | none => exact ⟨w.status_update_deadline, rfl⟩
  | some t => exact ⟨_, rfl⟩

theorem getElem?_lt {α : Type} {l : List α} {i : Nat} {a : α} (h : l[i]? = some a) :
    i < l.length := by
  by_contra hge
  rw [List.getElem?_eq_none (by omega)] at h
  simp at h

theorem to_unsigned_of_nonneg (x : Int) (h0 : 0 ≤ x) (h1 : x ≤ INT_MAX) :
    (to_unsigned x : Int) = x := by
  unfold to_unsigned
  unfold INT_MAX at h1
  omega

/-! ## The number of running jobs -/

/-- Along a run on a list of at most `INT_MAX` records `jobs_invariant` holds. -/
theorem running_jobs_invariant (options : li_unit_runner_options)
    (test_list : List li_unit_test) (r : IterateResult) (w : Runner)
    (hreach : Reachable options test_list r w)
    (hlen : (test_list.length : Int) ≤ INT_MAX) :
    jobs_invariant options test_list r w := by
  induction hreach with
  | start clock => simp [jobs_invariant, initial_state]
  | iterate sys w hw hvalid ih =>
    obtain ⟨h0, hc, hp, hcl, hl, hch⟩ := ih
    have hch := hch (by decide)
    have hint : w.running_jobs ≤ INT_MAX := by omega
    apply test_runner_iterate_cases options sys w (jobs_invariant options test_list)
    all_goals unfold jobs_invariant
    · intro _ _
      exact ⟨h0, hc, hp, hcl, hl, fun _ => hch⟩
    · intro hjobs hrem
      have hjobs2 : w.running_jobs < options.parallelism := by
        have := to_unsigned_of_nonneg _ h0 hint
        omega
      have hwrap : wrap_int (w.running_jobs + 1) = w.running_jobs + 1 :=
        wrap_int_of_range _ (by omega) (by omega)
      rcases spawn_test_shape options.default_timeout sys w with h | h
      · rw [h]
        exact ⟨h0, hc, hp, hcl, hl, fun h => absurd rfl h⟩
      · obtain ⟨test, admitted, hget, -, -, -, h | ⟨hfork, -, -, h⟩⟩ := h
        · rw [h]
          simp only [hwrap, List.length_set]
          refine ⟨by omega, by push_cast; omega, fun _ => by omega, by omega, hl, ?_⟩
          intro h
          simp at h
        · rw [h]
          simp only [hwrap, List.length_set, List.length_cons]
          refine ⟨by omega, by push_cast; omega, fun _ => by omega, by omega, hl, ?_⟩
          intro _
          push_cast
          omega
    · exact ⟨h0, hc, hp, hcl, hl, fun _ => hch⟩
    · exact ⟨h0, hc, hp, hcl, hl, fun h => absurd rfl h⟩
    · intro hpid
      have hmem := hvalid.2.2 hpid
      have hlen1 : (w.children.erase sys.waitpid).length = w.children.length - 1 :=
        List.length_erase_of_mem hmem
      have hpos : 0 < w.children.length := List.length_pos_of_mem hmem
      rcases handle_waitpid_shape sys.waitpid sys.status sys
          { w with children := w.children.erase sys.waitpid } with h | h
      · rw [h]
        exact ⟨h0, hc, hp, hcl, hl, fun h => absurd rfl h⟩
      · obtain ⟨i, test, reaped, -, -, -, -, -, h⟩ := h
        rw [h]
        have hwrap : wrap_int (w.running_jobs - 1) = w.running_jobs - 1 :=
          wrap_int_of_range _ (by omega) (by omega)
        simp only [hwrap, List.length_set, hlen1]
        refine ⟨by omega, by omega, fun h => by have := hp h; omega, hcl, hl, ?_⟩
        intro _
        omega
    · obtain ⟨t, h⟩ := handle_status_update_shape options.status_update_frequency sys w
      rw [h]
      exact ⟨h0, hc, hp, hcl, hl, fun _ => hch⟩
    · intro now i _ _
      rcases handle_deadline_shape i sys w with h | ⟨test, -, h | h⟩
      · rw [h]
        exact ⟨h0, hc, hp, hcl, hl, fun _ => hch⟩
      · rw [h]
        exact ⟨h0, hc, hp, hcl, hl, fun _ => hch⟩
      · rw [h]
        simp only [List.length_set]
        exact ⟨h0, hc, hp, hcl, hl, fun _ => hch⟩
    · intro now nd _ _
      exact ⟨h0, hc, hp, hcl, hl, fun _ => hch⟩

theorem run_loop_reachable (options : li_unit_runner_options)
    (test_list : List li_unit_test) (script : List Sys) (w : Runner)
    (r : IterateResult) (w1 : Runner)
    (hreach : Reachable options test_list TEST_RUNNER_ITERATE_AGAIN w)
    (hvalid : script_valid options script w)
    (hrun : run_loop options script w = some (r, w1)) :
    Reachable options test_list r w1 := by
  induction script generalizing w with
  | nil => simp [run_loop] at hrun
  | cons sys rest ih =>
    obtain ⟨hv, hrest⟩ := hvalid
    have hstep := Reachable.iterate sys w hreach hv
    unfold run_loop at hrun
    cases hres : test_runner_iterate options sys w with
    | mk r2 w2 =>
      rw [hres] at hrun hstep hrest
      cases r2 with
      | TEST_RUNNER_ITERATE_AGAIN => exact ih w2 hstep (hrest rfl) hrun
      | TEST_RUNNER_ITERATE_FAILURE =>
        simp only [Option.some.injEq, Prod.mk.injEq] at hrun
        obtain ⟨rfl, rfl⟩ := hrun
        exact hstep
      | TEST_RUNNER_ITERATE_SUCCESS =>
        simp only [Option.some.injEq, Prod.mk.injEq] at hrun
        obtain ⟨rfl, rfl⟩ := hrun
        exact hstep

theorem count_tests_eq (l : List li_unit_test) (n : Nat) (hn : n < UINT_RANGE) :
    count_tests l n = (n + l.length) % UINT_RANGE := by
  induction l generalizing n with
  | nil => simp [count_tests, Nat.mod_eq_of_lt hn]
  | cons t l ih =>
    unfold count_tests
    rw [ih _ (Nat.mod_lt _ (by decide))]
    simp only [List.length_cons]
    unfold UINT_RANGE
    omega

/-- Along a run `count_invariant` holds. -/
theorem count_invariant_holds (options : li_unit_runner_options)
    (test_list : List li_unit_test) (r : IterateResult) (w : Runner)
    (hreach : Reachable options test_list r w) :
    count_invariant test_list r w := by
  induction hreach with
  | start clock =>
    simp [count_invariant, initial_state, count_tests_eq, UINT_RANGE]
  | iterate sys w hw hvalid ih =>
    obtain ⟨hm, hlt, hcl, hl, ht, -⟩ := ih
    unfold UINT_RANGE at hlt
    apply test_runner_iterate_cases options sys w (count_invariant test_list)
    all_goals unfold count_invariant
    · intro h1 h2
      exact ⟨hm, hlt, hcl, hl, ht, fun _ => ⟨h1, h2⟩⟩
    · intro _ hrem
      rcases spawn_test_shape options.default_timeout sys w with h | h
      · rw [h]
        exact ⟨hm, hlt, hcl, hl, ht, fun h => by simp at h⟩
      · obtain ⟨test, admitted, hget, -, -, -, h | ⟨hfork, -, -, h⟩⟩ := h
        · rw [h]
          simp only [List.length_set]
          refine ⟨?_, hlt, by omega, hl, ht, fun h => by simp at h⟩
          unfold wrap_int
          push_cast
          omega
        · rw [h]
          simp only [List.length_set]
          refine ⟨?_, hlt, by omega, hl, ht, fun h => by simp [hfork] at h⟩
          unfold wrap_int
          push_cast
          omega
    · exact ⟨hm, hlt, hcl, hl, ht, fun h => by simp at h⟩
    · exact ⟨hm, hlt, hcl, hl, ht, fun h => by simp at h⟩
    · intro hpid
      rcases handle_waitpid_shape sys.waitpid sys.status sys
          { w with children := w.children.erase sys.waitpid } with h | h
      · rw [h]
        exact ⟨hm, hlt, hcl, hl, ht, fun h => by simp at h⟩
      · obtain ⟨i, test, reaped, -, -, -, -, -, h⟩ := h
        rw [h]
        simp only [List.length_set]
        refine ⟨?_, Nat.mod_lt _ (by decide), hcl, hl, ht, fun h => by simp at h⟩
        unfold wrap_int UINT_RANGE
        push_cast
        omega
    · obtain ⟨t, h⟩ := handle_status_update_shape options.status_update_frequency sys w
      rw [h]
      refine ⟨hm, hlt, hcl, hl, ht, fun h => ?_⟩
      split_ifs at h
    · intro now i _ _
      rcases handle_deadline_shape i sys w with h | ⟨test, -, h | h⟩
      · rw [h]
        exact ⟨hm, hlt, hcl, hl, ht, fun h => by simp at h⟩
      · rw [h]
        exact ⟨hm, hlt, hcl, hl, ht, fun h => by simp at h⟩
      · rw [h]
        simp only [List.length_set]
        exact ⟨hm, hlt, hcl, hl, ht, fun h => by simp at h⟩
    · intro now nd _ _
      refine ⟨hm, hlt, hcl, hl, ht, fun h => ?_⟩
      split_ifs at h

theorem scan_deadlines_expired {now : Timespec} {l : List li_unit_test} {k : Nat}
    {nd : Timespec} {j : Nat} (h : scan_deadlines now l k nd = ScanResult.expired j) :
    ∃ i t, j = k + i ∧ l[i]? = some t ∧ past_deadline now t
      ∧ ∀ i1 t1, i1 < i → l[i1]? = some t1 → ¬ past_deadline now t1 := by
  induction l generalizing k nd with
  | nil => simp [scan_deadlines] at h
  | cons a l ih =>
    unfold scan_deadlines at h
    by_cases ha : a.state = _LI_UNIT_RUNNING ∧ a.has_deadline = true
        ∧ li_util_timespec_lt a.deadline now = true
    · rw [if_pos ha] at h
      simp only [ScanResult.expired.injEq] at h
      exact ⟨0, a, by omega, by simp, ha, fun i1 t1 h1 => by omega⟩
    · rw [if_neg ha] at h
      have h2 : ∃ nd1, scan_deadlines now l (k + 1) nd1 = ScanResult.expired j := by
        split_ifs at h
        · exact ⟨_, h⟩
        · exact ⟨_, h⟩
      obtain ⟨nd1, h2⟩ := h2
      obtain ⟨i, t, hj, hget, hp, hfirst⟩ := ih h2
      refine ⟨i + 1, t, by omega, by simpa using hget, hp, ?_⟩
      intro i1 t1 h1 hget1
      cases i1 with
      | zero =>
        simp only [List.getElem?_cons_zero, Option.some.injEq] at hget1
        subst hget1
        exact ha
      | succ i2 =>
        simp only [List.getElem?_cons_succ] at hget1
        exact hfirst i2 t1 (by omega) hget1

theorem scan_deadlines_first {now : Timespec} {l : List li_unit_test} (k : Nat)
    (nd : Timespec) {i : Nat} {t : li_unit_test} (hget : l[i]? = some t)
    (hp : past_deadline now t)
    (hfirst : ∀ i1 t1, i1 < i → l[i1]? = some t1 → ¬ past_deadline now t1) :
    scan_deadlines now l k nd = ScanResult.expired (k + i) := by
  induction l generalizing k nd i with
  | nil => simp at hget
  | cons a l ih =>
    unfold scan_deadlines
    cases i with
    | zero =>
      simp only [List.getElem?_cons_zero, Option.some.injEq] at hget
      subst hget
      have hp1 : a.state = _LI_UNIT_RUNNING ∧ a.has_deadline = true
          ∧ li_util_timespec_lt a.deadline now = true := hp
      rw [if_pos hp1]
      rfl
    | succ i2 =>
      simp only [List.getElem?_cons_succ] at hget
      have ha : ¬ (a.state = _LI_UNIT_RUNNING ∧ a.has_deadline = true
          ∧ li_util_timespec_lt a.deadline now = true) := hfirst 0 a (by omega) (by simp)
      rw [if_neg ha]
      have hfirst2 : ∀ i1 t1, i1 < i2 → l[i1]? = some t1 → ¬ past_deadline now t1 :=
        fun i1 t1 h1 hg => hfirst (i1 + 1) t1 (by omega) (by simpa using hg)
      split_ifs
      · rw [ih (k + 1) _ hget hfirst2]
        congr 1
        omega
      · rw [ih (k + 1) _ hget hfirst2]
        congr 1
        omega

theorem getElem?_take_some {α : Type} {l : List α} {n i : Nat} {a : α}
    (h : (l.take n)[i]? = some a) : l[i]? = some a ∧ i < n := by
  rw [List.getElem?_take] at h
  split_ifs at h with hlt
  exact ⟨h, hlt⟩

theorem getElem?_set_cases {α : Type} {l : List α} {i j : Nat} {v a : α}
    (h : (l.set i v)[j]? = some a) : (j = i ∧ a = v) ∨ (j ≠ i ∧ l[j]? = some a) := by
  by_cases hij : i = j
  · subst hij
    have hlt : i < l.length := by
      have := getElem?_lt h
      simpa using this
    rw [List.getElem?_set_self hlt] at h
    left
    exact ⟨rfl, by simpa using h.symm⟩
  · rw [List.getElem?_set_ne hij] at h
    right
    exact ⟨fun h => hij h.symm, h⟩

/-! ## The default timeout -/

/-- C4, counterexample: a test admitted with default timeout 1 and multiplier 1
(deadline 1001 s) whose worker ends by itself and is reaped at 1001.00006 s,
later than its deadline and after more than 1 second, with a normal exit 0: its
final state is `_LI_UNIT_SUCCEEDED`, not `_LI_UNIT_DEADLINE_EXCEEDED`. -/
theorem late_exit_not_deadline_exceeded :
    (li_unit_run_tests example_setup [] late_exit_options
        [{ name := "lithium.example.sleeps", options := { timeout_multiplier := 1 } }]
        late_exit_script).map
      (fun r => (r.1, r.2.test_list.map
        (fun t => (t.has_deadline, t.deadline, t.elapsed_time, t.state))))
      = some (0, [(true, ⟨1001, 0⟩, ⟨1, 60000⟩, _LI_UNIT_SUCCEEDED)])
    ∧ li_util_timespec_lt ⟨1001, 0⟩ ⟨1001, 60000⟩ = true := by
  constructor <;> rfl

/-- C4, amended: when an iteration reaches the scan for deadlines (nothing to
finish or admit, nothing read, no worker to reap, no report due) at a time
`now`, and the record at position `i` before the cursor is running with a
deadline earlier than `now`, no record before it being so, and `kill` succeeds,
then the iteration returns `TEST_RUNNER_ITERATE_AGAIN` and leaves that record in
`_LI_UNIT_PENDING_DEADLINE_EXCEEDED`; and whenever `handle_waitpid` reaps a
record in that state with a wait status other than a normal exit 0, the record
ends in `_LI_UNIT_DEADLINE_EXCEEDED`. -/
theorem deadline_exceeded_path (options : li_unit_runner_options) (sys : Sys)
    (w : Runner) (now : Timespec) (i : Nat) (test : li_unit_test)
    (hbusy : ¬ (w.running_jobs = 0 ∧ w.test_list.length ≤ w.remaining_tests))
    (hfull : ¬ (to_unsigned w.running_jobs < options.parallelism
      ∧ w.remaining_tests < w.test_list.length))
    (hread : sys.read ≤ 0) (hwait : sys.waitpid = 0) (hnow : sys.now = some now)
    (hreport : ¬ (now.tv_sec ≥ w.status_update_deadline.tv_sec
      ∧ now.tv_nsec ≥ w.status_update_deadline.tv_nsec))
    (hadmitted : i < w.remaining_tests) (hget : w.test_list[i]? = some test)
    (hpast : past_deadline now test)
    (hfirst : ∀ j t, j < i → w.test_list[j]? = some t → ¬ past_deadline now t)
    (hkill : 0 ≤ sys.kill) :
    (test_runner_iterate options sys w).1 = TEST_RUNNER_ITERATE_AGAIN
    ∧ ((test_runner_iterate options sys w).2.test_list[i]?).map (fun t => t.state)
        = some _LI_UNIT_PENDING_DEADLINE_EXCEEDED
    ∧ (test_runner_iterate options sys w).2.events
        = Event.kill test.pid sys.kill :: w.events
    ∧ ∀ (pid : Int) (status : Nat) (sys1 : Sys) (w1 : Runner) (now1 : Timespec) (j : Nat)
        (t : li_unit_test), sys1.reap_clock = some now1 →
        find_test w1.test_list pid = some (j, t) →
        t.state = _LI_UNIT_PENDING_DEADLINE_EXCEEDED →
        ¬ (WIFEXITED status = true ∧ WEXITSTATUS status = 0) →
        ((handle_waitpid pid status sys1 w1).2.test_list[j]?).map (fun t => t.state)
          = some _LI_UNIT_DEADLINE_EXCEEDED := by
  have hscan : scan_deadlines now (w.test_list.take w.remaining_tests) 0
      w.status_update_deadline = ScanResult.expired i := by
    have htake : (w.test_list.take w.remaining_tests)[i]? = some test := by
      rw [List.getElem?_take, if_pos hadmitted, hget]
    have := scan_deadlines_first 0 w.status_update_deadline htake hpast
      (fun j t hj hg => hfirst j t hj (getElem?_take_some hg).1)
    simpa using this
  have hlt := getElem?_lt hget
  have hstep : test_runner_iterate options sys w
      = (TEST_RUNNER_ITERATE_AGAIN, { w with
          events := Event.kill test.pid sys.kill :: w.events
          test_list := w.test_list.set i
            { test with state := _LI_UNIT_PENDING_DEADLINE_EXCEEDED } }) := by
    unfold test_runner_iterate
    rw [if_neg hbusy, if_neg hfull, if_neg (by omega), if_neg (by omega),
      if_neg (by omega), hnow]
    simp only [hreport, ↓reduceIte, hscan, handle_deadline, hget]
    rw [if_neg (by omega)]
  rw [hstep]
  refine ⟨rfl, ?_, rfl, ?_⟩
  · simp [List.getElem?_set_self hlt]
  · intro pid status sys1 w1 now1 j t hclock hfind hstate hstatus
    have := (handle_waitpid_found pid status sys1 w1 now1 j t hclock hfind).2
    rw [this, if_neg hstatus, if_pos hstate]

theorem deadline_exceeded_path_witness :
    ((test_runner_iterate example_options { now := some ⟨1006, 0⟩ }
        example_running).2.test_list[0]?).map (fun t => t.state)
      = some _LI_UNIT_PENDING_DEADLINE_EXCEEDED
    ∧ ((handle_waitpid 102 9 {} example_running).2.test_list[1]?).map (fun t => t.state)
      = some _LI_UNIT_DEADLINE_EXCEEDED :=
  have h := deadline_exceeded_path example_options { now := some ⟨1006, 0⟩ }
    example_running ⟨1006, 0⟩ 0
    { name := "lithium.example.fails", state := _LI_UNIT_RUNNING, pid := 101,
      has_deadline := true, start_time := ⟨1000, 500⟩, deadline := ⟨1005, 500⟩ }
    (by decide) (by decide) (by decide) (by decide) rfl (by decide) (by decide) (by decide)
    (by decide) (fun j _ hj => absurd hj (Nat.not_lt_zero j)) (by decide)
  ⟨h.2.1, h.2.2.2 102 9 {} example_running ⟨0, 0⟩ 1
    { name := "lithium.example.flaky", options := { informational := true },
      state := _LI_UNIT_PENDING_DEADLINE_EXCEEDED, pid := 102,
      has_deadline := true, start_time := ⟨1000, 600⟩, deadline := ⟨1005, 600⟩ }
    rfl (by decide) rfl (by decide)⟩

/-! ## Failures of system calls -/

/-- C9, the code at the failing input: the scan finds the record past its
deadline and `kill` fails. The record stays `_LI_UNIT_RUNNING`, but the iteration
returns `TEST_RUNNER_ITERATE_AGAIN`, the loop goes on, and `li_unit_run_tests`
returns 0 after the worker has ended by itself. -/
theorem failed_kill_is_ignored :
    (test_runner_iterate example_options { now := some ⟨1006, 0⟩, kill := -1 }
        example_running).1 = TEST_RUNNER_ITERATE_AGAIN
    ∧ (test_runner_iterate example_options { now := some ⟨1006, 0⟩, kill := -1 }
        example_running).2.test_list.map (fun t => t.state)
      = [_LI_UNIT_RUNNING, _LI_UNIT_PENDING_DEADLINE_EXCEEDED, _LI_UNIT_NOT_STARTED]
    ∧ (li_unit_run_tests example_setup [] late_exit_options
        [{ name := "lithium.example.sleeps" }] failed_kill_script).map
      (fun r => (r.1, r.2.test_list.map (fun t => t.state), r.2.events))
      = some (0, [_LI_UNIT_SUCCEEDED], [Event.kill 101 (-1)]) := by
  refine ⟨?_, ?_, ?_⟩ <;> rfl

/-- C10, the code at the failing input: the report is due at 1015.0005 s and
the iteration runs at 1016.0 s. No report is made and the deadline is not
moved; the iteration goes on to the wait and passes `pselect` the timeout
(-1 s, 500000 ns), and when `pselect` rejects it the run ends with -1. -/
theorem due_report_is_skipped :
    li_util_timespec_lt ⟨1016, 0⟩ ⟨1015, 500000⟩ = false
    ∧ (li_unit_run_tests late_report_setup [] negative_timeout_options
        [{ name := "lithium.example.sleeps" }] late_report_script).map
      (fun r => (r.1, r.2.status_update_deadline, r.2.events))
      = some (-1, ⟨1015, 500000⟩, [Event.pselect ⟨-1, 500000⟩]) := by
  constructor <;> rfl

/-! ## Records and workers -/

theorem find_test_first {l : List li_unit_test} {pid : Int} {i : Nat} {t : li_unit_test}
    (h : find_test l pid = some (i, t)) :
    ∀ j u, j < i → l[j]? = some u → u.pid ≠ pid := by
  induction l generalizing i with
  | nil => simp [find_test] at h
  | cons a l ih =>
    unfold find_test at h
    split at h
    · simp only [Option.some.injEq, Prod.mk.injEq] at h
      obtain ⟨rfl, -⟩ := h
      intro j u hj
      omega
    · rename_i ha
      cases hf : find_test l pid with
      | none => simp [hf] at h
      | some r =>
        obtain ⟨k, v⟩ := r
        simp only [hf, Option.map_some', Option.some.injEq, Prod.mk.injEq] at h
        obtain ⟨rfl, rfl⟩ := h
        intro j u hj hget
        cases j with
        | zero =>
          simp only [List.getElem?_cons_zero, Option.some.injEq] at hget
          subst hget
          exact ha
        | succ j2 =>
          simp only [List.getElem?_cons_succ] at hget
          exact ih hf j2 u (by omega) hget

theorem records_ok_set_same {l : List li_unit_test} {c : Nat} {children forked : List Int}
    {i : Nat} {t v : li_unit_test} (hok : records_ok l c children forked)
    (hget : l[i]? = some t) (hpid : v.pid = t.pid)
    (hstate : v.state ≠ _LI_UNIT_NOT_STARTED) (hactive : active v ↔ active t) :
    records_ok (l.set i v) c children forked := by
  obtain ⟨h1, h2, h3, h4, h5, h6⟩ := hok
  have hlt := getElem?_lt hget
  have hback : ∀ k u, (l.set i v)[k]? = some u →
      ∃ u0, l[k]? = some u0 ∧ u0.pid = u.pid ∧ (active u ↔ active u0)
        ∧ (k < c → u.state ≠ _LI_UNIT_NOT_STARTED) := by
    intro k u hk
    rcases getElem?_set_cases hk with ⟨rfl, rfl⟩ | ⟨hne, hold⟩
    · exact ⟨t, hget, hpid.symm, hactive, fun _ => hstate⟩
    · exact ⟨u, hold, rfl, Iff.rfl, fun hc => h1 k u hold hc⟩
  refine ⟨?_, ?_, ?_, ?_, ?_, h6⟩
  · intro k u hk hc
    obtain ⟨u0, -, -, -, hs⟩ := hback k u hk
    exact hs hc
  · intro k j uk uj hk hj hkc hjc hp
    obtain ⟨a, ha, hap, -, -⟩ := hback k uk hk
    obtain ⟨b, hb, hbp, -, -⟩ := hback j uj hj
    exact h2 k j a b ha hb hkc hjc (by rw [hap, hbp, hp])
  · intro k u hk hc
    obtain ⟨a, ha, hap, -, -⟩ := hback k u hk
    rw [← hap]
    exact h3 k a ha hc
  · intro k u hk hc
    obtain ⟨a, ha, hap, hact, -⟩ := hback k u hk
    rw [← hap, hact]
    exact h4 k a ha hc
  · intro q hq
    obtain ⟨k, u, hk, hc, hp⟩ := h5 q hq
    by_cases hki : k = i
    · subst hki
      rw [hget] at hk
      simp only [Option.some.injEq] at hk
      subst hk
      exact ⟨k, v, List.getElem?_set_self hlt, hc, by rw [hpid, hp]⟩
    · exact ⟨k, u, by rw [List.getElem?_set_ne (fun h => hki h.symm)]; exact hk, hc, hp⟩

theorem records_ok_spawn {l : List li_unit_test} {c : Nat} {children forked : List Int}
    {v : li_unit_test} {p : Int} (hok : records_ok l c children forked)
    (hlt : c < l.length) (hstate : v.state = _LI_UNIT_RUNNING) (hpid : v.pid = p)
    (hfresh : p ∉ forked) :
    records_ok (l.set c v) (c + 1) (p :: children) (p :: forked) := by
  obtain ⟨h1, h2, h3, h4, h5, h6⟩ := hok
  have hsub : ∀ q ∈ children, q ∈ forked := by
    intro q hq
    obtain ⟨k, u, hk, hc, hp⟩ := h5 q hq
    rw [← hp]
    exact h3 k u hk hc
  have hback : ∀ k u, (l.set c v)[k]? = some u → k < c + 1 →
      (k = c ∧ u = v) ∨ (k < c ∧ l[k]? = some u) := by
    intro k u hk hkc
    rcases getElem?_set_cases hk with ⟨rfl, rfl⟩ | ⟨hne, hold⟩
    · exact Or.inl ⟨rfl, rfl⟩
    · exact Or.inr ⟨by omega, hold⟩
  refine ⟨?_, ?_, ?_, ?_, ?_, ?_⟩
  · intro k u hk hc
    rcases hback k u hk hc with ⟨-, rfl⟩ | ⟨hkc, hold⟩
    · rw [hstate]
      decide
    · exact h1 k u hold hkc
  · intro k j uk uj hk hj hkc hjc hp
    rcases hback k uk hk hkc with ⟨rfl, rfl⟩ | ⟨hkc1, hkold⟩
    · rcases hback j uj hj hjc with ⟨rfl, rfl⟩ | ⟨hjc1, hjold⟩
      · rfl
      · exact absurd (h3 j uj hjold hjc1) (by rw [← hp, hpid]; exact hfresh)
    · rcases hback j uj hj hjc with ⟨rfl, rfl⟩ | ⟨hjc1, hjold⟩
      · exact absurd (h3 k uk hkold hkc1) (by rw [hp, hpid]; exact hfresh)
      · exact h2 k j uk uj hkold hjold hkc1 hjc1 hp
  · intro k u hk hc
    rcases hback k u hk hc with ⟨-, rfl⟩ | ⟨hkc, hold⟩
    · rw [hpid]
      exact List.mem_cons_self _ _
    · exact List.mem_cons_of_mem _ (h3 k u hold hkc)
  · intro k u hk hc
    rcases hback k u hk hc with ⟨-, rfl⟩ | ⟨hkc, hold⟩
    · rw [hpid]
      exact ⟨fun _ => Or.inl hstate, fun _ => List.mem_cons_self _ _⟩
    · have hne : u.pid ≠ p := fun h => hfresh (h ▸ h3 k u hold hkc)
      rw [List.mem_cons]
      constructor
      · rintro (h | h)
        · exact absurd h hne
        · exact (h4 k u hold hkc).1 h
      · intro h
        exact Or.inr ((h4 k u hold hkc).2 h)
  · intro q hq
    rcases List.mem_cons.1 hq with rfl | hq1
    · exact ⟨c, v, List.getElem?_set_self hlt, by omega, hpid⟩
    · obtain ⟨k, u, hk, hc, hp⟩ := h5 q hq1
      refine ⟨k, u, ?_, by omega, hp⟩
      rw [List.getElem?_set_ne (by omega)]
      exact hk
  · exact List.nodup_cons.2 ⟨fun h => hfresh (hsub p h), h6⟩

theorem records_ok_reap {l : List li_unit_test} {c : Nat} {children forked : List Int}
    {i : Nat} {t v : li_unit_test} {p : Int} (hok : records_ok l c children forked)
    (hfind : find_test l p = some (i, t)) (hmem : p ∈ children) (hpid : v.pid = t.pid)
    (hstate : v.state = _LI_UNIT_SUCCEEDED ∨ v.state = _LI_UNIT_FAILED
      ∨ v.state = _LI_UNIT_DEADLINE_EXCEEDED) :
    records_ok (l.set i v) c (children.erase p) forked := by
  obtain ⟨h1, h2, h3, h4, h5, h6⟩ := hok
  obtain ⟨hget, htp, hlt⟩ := find_test_some hfind
  have hic : i < c := by
    obtain ⟨j, u, hj, hjc, hup⟩ := h5 p hmem
    by_contra hge
    exact find_test_first hfind j u (by omega) hj hup
  have hvs : v.state ≠ _LI_UNIT_NOT_STARTED := by
    rcases hstate with h | h | h <;> rw [h] <;> decide
  have hvn : ¬ active v := by
    unfold active
    rcases hstate with h | h | h <;> rw [h] <;> decide
  have hback : ∀ k u, (l.set i v)[k]? = some u →
      (k = i ∧ u = v) ∨ (k ≠ i ∧ l[k]? = some u) := fun k u hk => getElem?_set_cases hk
  have hother : ∀ k u, k ≠ i → l[k]? = some u → k < c → u.pid ≠ p := by
    intro k u hki hk hkc hup
    exact hki (h2 k i u t hk hget hkc hic (by rw [hup, htp]))
  refine ⟨?_, ?_, ?_, ?_, ?_, h6.erase p⟩
  · intro k u hk hc
    rcases hback k u hk with ⟨-, rfl⟩ | ⟨-, hold⟩
    · exact hvs
    · exact h1 k u hold hc
  · intro k j uk uj hk hj hkc hjc hp
    have hk1 : ∃ a, l[k]? = some a ∧ a.pid = uk.pid := by
      rcases hback k uk hk with ⟨rfl, rfl⟩ | ⟨-, hold⟩
      · exact ⟨t, hget, hpid.symm⟩
      · exact ⟨uk, hold, rfl⟩
    have hj1 : ∃ b, l[j]? = some b ∧ b.pid = uj.pid := by
      rcases hback j uj hj with ⟨rfl, rfl⟩ | ⟨-, hold⟩
      · exact ⟨t, hget, hpid.symm⟩
      · exact ⟨uj, hold, rfl⟩
    obtain ⟨a, ha, hap⟩ := hk1
    obtain ⟨b, hb, hbp⟩ := hj1
    exact h2 k j a b ha hb hkc hjc (by rw [hap, hbp, hp])
  · intro k u hk hc
    rcases hback k u hk with ⟨rfl, rfl⟩ | ⟨-, hold⟩
    · rw [hpid]
      exact h3 k t hget hc
    · exact h3 k u hold hc
  · intro k u hk hc
    rcases hback k u hk with ⟨rfl, rfl⟩ | ⟨hne, hold⟩
    · rw [hpid, htp]
      constructor
      · intro h
        exact absurd h (by rw [h6.mem_erase_iff]; simp)
      · intro h
        exact absurd h hvn
    · have hne2 : u.pid ≠ p := hother k u hne hold hc
      rw [h6.mem_erase_iff]
      constructor
      · intro h
        exact (h4 k u hold hc).1 h.2
      · intro h
        exact ⟨hne2, (h4 k u hold hc).2 h⟩
  · intro q hq
    rw [h6.mem_erase_iff] at hq
    obtain ⟨k, u, hk, hc, hp⟩ := h5 q hq.2
    have hki : k ≠ i := by
      rintro rfl
      rw [hget] at hk
      simp only [Option.some.injEq] at hk
      subst hk
      exact hq.1 (by rw [← hp, htp])
    refine ⟨k, u, ?_, hc, hp⟩
    rw [List.getElem?_set_ne (fun h => hki h.symm)]
    exact hk

/-- Along a run `records_invariant` holds. -/
theorem records_invariant_holds (options : li_unit_runner_options)
    (test_list : List li_unit_test) (r : IterateResult) (w : Runner)
    (hreach : Reachable options test_list r w) :
    records_invariant r w := by
  induction hreach with
  | start clock =>
    intro _
    simp [records_ok, initial_state]
  | iterate sys w hw hvalid ih =>
    have hok := ih (by decide)
    apply test_runner_iterate_cases options sys w records_invariant
    all_goals unfold records_invariant
    · intro _ _ _
      exact hok
    · intro _ _
      rcases spawn_test_shape options.default_timeout sys w with h | h
      · rw [h]
        intro h
        simp at h
      · obtain ⟨test, admitted, hget, -, hrun, -, h | ⟨hfork, hpid, -, h⟩⟩ := h
        · rw [h]
          intro h
          simp at h
        · rw [h]
          intro _
          have hpos : 0 < sys.fork := by
            have := hvalid.1
            omega
          exact records_ok_spawn hok (getElem?_lt hget) hrun hpid (hvalid.2.1 hpos)
    · intro _
      exact hok
    · intro h
      exact absurd rfl h
    · intro hpid
      rcases handle_waitpid_shape sys.waitpid sys.status sys
          { w with children := w.children.erase sys.waitpid } with h | h
      · rw [h]
        intro h
        simp at h
      · obtain ⟨i, test, reaped, hfind, hterm, hsame, -, -, h⟩ := h
        rw [h]
        intro _
        exact records_ok_reap hok hfind (hvalid.2.2 hpid) hsame hterm
    · obtain ⟨t, h⟩ := handle_status_update_shape options.status_update_frequency sys w
      rw [h]
      intro _
      exact hok
    · intro now i _ hscan
      obtain ⟨j, t, hj, hget, hp, -⟩ := scan_deadlines_expired hscan
      obtain ⟨hget1, -⟩ := getElem?_take_some hget
      have hij : i = j := by omega
      subst hij
      intro _
      rcases handle_deadline_shape i sys w with h | ⟨test, hget2, h | h⟩
      · rw [h]
        exact hok
      · rw [h]
        exact hok
      · rw [h]
        rw [hget1] at hget2
        simp only [Option.some.injEq] at hget2
        subst hget2
        refine records_ok_set_same hok hget1 rfl (by simp) ?_
        unfold active
        simp [hp.1]
    · intro now nd _ _ _
      exact hok

/-- In a run in which `fork` returns no pid twice (the runs of `Reachable`), on
a list of at most `INT_MAX` records: whenever `test_runner_iterate` returns
`TEST_RUNNER_ITERATE_SUCCESS`, every record of the list is in a terminal state,
`_LI_UNIT_SUCCEEDED`, `_LI_UNIT_FAILED` or `_LI_UNIT_DEADLINE_EXCEEDED`. The
assumption is needed: in a run in which a pid is returned a second time the
loop can end with a record still running. -/
theorem all_terminal_at_success (options : li_unit_runner_options)
    (test_list : List li_unit_test) (w : Runner)
    (hreach : Reachable options test_list TEST_RUNNER_ITERATE_SUCCESS w)
    (hlen : (test_list.length : Int) ≤ INT_MAX) :
    ∀ t ∈ w.test_list, t.state = _LI_UNIT_SUCCEEDED ∨ t.state = _LI_UNIT_FAILED
      ∨ t.state = _LI_UNIT_DEADLINE_EXCEEDED := by
  obtain ⟨-, -, -, -, -, hjobs⟩ := running_jobs_invariant options test_list _ w hreach hlen
  obtain ⟨-, -, -, -, -, hs⟩ := count_invariant_holds options test_list _ w hreach
  obtain ⟨h1, -, -, h4, -, -⟩ := records_invariant_holds options test_list _ w hreach
    (by decide)
  obtain ⟨hzero, hall⟩ := hs rfl
  have hnil : w.children = [] := by
    have := hjobs (by decide)
    rw [hzero] at this
    exact List.length_eq_zero.1 (by omega)
  intro t ht
  obtain ⟨i, hlt, hget⟩ := List.getElem_of_mem ht
  have hget1 : w.test_list[i]? = some t := by
    rw [List.getElem?_eq_getElem hlt, hget]
  have hns := h1 i t hget1 (by omega)
  have hna : ¬ active t := by
    intro ha
    have := (h4 i t hget1 (by omega)).2 ha
    rw [hnil] at this
    simp at this
  unfold active at hna
  cases hst : t.state <;> simp_all

theorem all_terminal_at_success_witness :
    (example_list.length : Int) ≤ INT_MAX
    ∧ ((example_final.test_list.getD 1 {}).state = _LI_UNIT_SUCCEEDED
      ∨ (example_final.test_list.getD 1 {}).state = _LI_UNIT_FAILED
      ∨ (example_final.test_list.getD 1 {}).state = _LI_UNIT_DEADLINE_EXCEEDED) :=
  ⟨by decide,
    all_terminal_at_success (default_options example_setup example_options) example_list
      example_final
      (run_loop_reachable _ _ example_script _ _ _ (Reachable.start ⟨1000, 0⟩) (by decide)
        (by rfl))
      (by decide) (example_final.test_list.getD 1 {}) (by decide)⟩

/-! ## The filter -/

/-- C11, the code at the failing input: with a filter function that returns
false for every record, the record of the list is admitted all the same (a
worker with pid 101 is forked for it), and its failure makes the run return
1. -/
theorem filter_is_not_consulted :
    (li_unit_run_tests example_setup [] reject_all_options
        [{ name := "lithium.example.fails" }] reject_all_script).map
      (fun r => (r.1, r.2.test_list.map (fun t => (t.state, t.pid)), r.2.forked,
        r.2.remaining_tests))
      = some (1, [(_LI_UNIT_FAILED, 101)], [101], 1)
    ∧ reject_all_options.filter.map (fun f => f { name := "lithium.example.fails" })
      = some false := by
  constructor <;> rfl

/-! ## Assertions and expectations -/

theorem call_func_evaluated (body : List Check) (s : testlib_state) :
    (call_func body s).1 = checks_until_failed_assert body := by
  induction body generalizing s with
  | nil => rfl
  | cons c rest ih =>
    cases c with
    | ASSERT condition =>
      cases condition with
      | false => simp [call_func, _li_unit_test_assert, checks_until_failed_assert]
      | true => simp [call_func, _li_unit_test_assert, checks_until_failed_assert, ih]
    | EXPECT condition => simp [call_func, checks_until_failed_assert, ih]

theorem call_func_counters (body : List Check) (s : testlib_state)
    (hlen : s.successful_assertions + s.failed_assertions + body.length < SIZE_RANGE) :
    match (call_func body s).2 with
    | Except.error e =>
      e.premature = true ∧ e.status = 1 ∧ Check.ASSERT false ∈ body
      ∧ e.counters.successful_assertions = s.successful_assertions
          + ((call_func body s).1.filter (fun c => c.condition)).length
      ∧ e.counters.failed_assertions = s.failed_assertions
          + ((call_func body s).1.filter (fun c => !c.condition)).length
    | Except.ok s1 =>
      Check.ASSERT false ∉ body
      ∧ s1.successful_assertions = s.successful_assertions
          + ((call_func body s).1.filter (fun c => c.condition)).length
      ∧ s1.failed_assertions = s.failed_assertions
          + ((call_func body s).1.filter (fun c => !c.condition)).length := by
  induction body generalizing s with
  | nil => simp [call_func]
  | cons c rest ih =>
    simp only [List.length_cons] at hlen
    cases c with
    | ASSERT condition =>
      cases condition with
      | false =>
        have h1 : (s.failed_assertions + 1) % SIZE_RANGE = s.failed_assertions + 1 :=
          Nat.mod_eq_of_lt (by omega)
        simp [call_func, _li_unit_test_assert, handle_test_exit, h1, Check.condition]
      | true =>
        have h1 : (s.successful_assertions + 1) % SIZE_RANGE = s.successful_assertions + 1 :=
          Nat.mod_eq_of_lt (by omega)
        have := ih { s with successful_assertions := s.successful_assertions + 1 }
          (by simp only; omega)
        simp only [call_func, _li_unit_test_assert, h1, ↓reduceIte]
        revert this
        cases (call_func rest
          { s with successful_assertions := s.successful_assertions + 1 }).2 with
        | error e =>
          simp only [List.mem_cons, Check.ASSERT.injEq, Bool.true_eq_false, false_or,
            List.filter_cons, Check.condition, ↓reduceIte, List.length_cons, Bool.not_true,
            Bool.false_eq_true]
          intro h
          refine ⟨h.1, h.2.1, h.2.2.1, ?_, h.2.2.2.2⟩
          rw [h.2.2.2.1]
          omega
        | ok s1 =>
          simp only [List.mem_cons, Check.ASSERT.injEq, Bool.true_eq_false, false_or,
            List.filter_cons, Check.condition, ↓reduceIte, List.length_cons, Bool.not_true,
            Bool.false_eq_true]
          intro h
          refine ⟨h.1, ?_, h.2.2⟩
          rw [h.2.1]
          omega
    | EXPECT condition =>
      cases condition with
      | false =>
        have h1 : (s.failed_assertions + 1) % SIZE_RANGE = s.failed_assertions + 1 :=
          Nat.mod_eq_of_lt (by omega)
        have := ih { s with failed_assertions := s.failed_assertions + 1 }
          (by simp only; omega)
        simp only [call_func, _li_unit_test_expect, h1, Bool.false_eq_true, ↓reduceIte]
        revert this
        cases (call_func rest
          { s with failed_assertions := s.failed_assertions + 1 }).2 with
        | error e =>
          simp only [List.mem_cons, reduceCtorEq, false_or,
            List.filter_cons, Check.condition, ↓reduceIte, List.length_cons, Bool.not_false,
            Bool.false_eq_true]
          intro h
          refine ⟨h.1, h.2.1, h.2.2.1, h.2.2.2.1, ?_⟩
          rw [h.2.2.2.2]
          omega
        | ok s1 =>
          simp only [List.mem_cons, reduceCtorEq, false_or,
            List.filter_cons, Check.condition, ↓reduceIte, List.length_cons, Bool.not_false,
            Bool.false_eq_true]
          intro h
          refine ⟨h.1, h.2.1, ?_⟩
          rw [h.2.2]
          omega
      | true =>
        have h1 : (s.successful_assertions + 1) % SIZE_RANGE = s.successful_assertions + 1 :=
          Nat.mod_eq_of_lt (by omega)
        have := ih { s with successful_assertions := s.successful_assertions + 1 }
          (by simp only; omega)
        simp only [call_func, _li_unit_test_expect, h1, ↓reduceIte]
        revert this
        cases (call_func rest
          { s with successful_assertions := s.successful_assertions + 1 }).2 with
        | error e =>
          simp only [List.mem_cons, reduceCtorEq, false_or,
            List.filter_cons, Check.condition, ↓reduceIte, List.length_cons, Bool.not_true,
            Bool.false_eq_true]
          intro h
          refine ⟨h.1, h.2.1, h.2.2.1, ?_, h.2.2.2.2⟩
          rw [h.2.2.2.1]
          omega
        | ok s1 =>
          simp only [List.mem_cons, reduceCtorEq, false_or,
            List.filter_cons, Check.condition, ↓reduceIte, List.length_cons, Bool.not_true,
            Bool.false_eq_true]
          intro h
          refine ⟨h.1, ?_, h.2.2⟩
          rw [h.2.1]
          omega

theorem call_func_status (body : List Check) (s : testlib_state) (e : WorkerExit)
    (h : (call_func body s).2 = Except.error e) :
    e.status = if e.counters.failed_assertions ≠ 0 then 1 else 0 := by
  induction body generalizing s with
  | nil => simp [call_func] at h
  | cons c rest ih =>
    cases c with
    | ASSERT condition =>
      cases condition with
      | false =>
        simp only [call_func, _li_unit_test_assert, Bool.false_eq_true, ↓reduceIte,
          Except.error.injEq] at h
        subst h
        rfl
      | true =>
        simp only [call_func, _li_unit_test_assert, ↓reduceIte] at h
        exact ih _ h
    | EXPECT condition =>
      simp only [call_func] at h
      exact ih _ h

/-- C12: for a test body seen as its sequence of checks (fewer than `2^64` of
them), run in a process whose counters are 0: the checks evaluated are those
up to and including the first false `ASSERT`, which ends the test (`premature`);
the exit status is 0 if and only if no evaluated check was false and 1
otherwise; `successful_assertions + failed_assertions` is the number of checks
evaluated; and `_li_unit_test_expect` returns its condition, counting a false
one as failed without ending the test. -/
theorem li_unit_run_test_exit (test : li_unit_test)
    (hlen : test.func.length < SIZE_RANGE) :
    (li_unit_run_test test {}).1 = checks_until_failed_assert test.func
    ∧ ((li_unit_run_test test {}).2.status = 0
        ↔ ∀ c ∈ (li_unit_run_test test {}).1, c.condition = true)
    ∧ ((li_unit_run_test test {}).2.status = 0 ∨ (li_unit_run_test test {}).2.status = 1)
    ∧ ((li_unit_run_test test {}).2.premature = true ↔ Check.ASSERT false ∈ test.func)
    ∧ (li_unit_run_test test {}).2.counters.successful_assertions
        + (li_unit_run_test test {}).2.counters.failed_assertions
        = (li_unit_run_test test {}).1.length
    ∧ (∀ result s, (_li_unit_test_expect result s).1 = result)
    ∧ (∀ s, (_li_unit_test_expect false s).2.failed_assertions
        = (s.failed_assertions + 1) % SIZE_RANGE) := by
  have hev := call_func_evaluated test.func {}
  have hc := call_func_counters test.func {} (by simpa using hlen)
  have hsum := List.length_eq_length_filter_add (l := (call_func test.func {}).1)
    (fun c => c.condition)
  have hcore : (li_unit_run_test test {}).1 = (call_func test.func {}).1
      ∧ (li_unit_run_test test {}).2.status
          = (if (li_unit_run_test test {}).2.counters.failed_assertions ≠ 0 then 1 else 0)
      ∧ ((li_unit_run_test test {}).2.premature = true ↔ Check.ASSERT false ∈ test.func)
      ∧ (li_unit_run_test test {}).2.counters.successful_assertions
          = ((call_func test.func {}).1.filter (fun c => c.condition)).length
      ∧ (li_unit_run_test test {}).2.counters.failed_assertions
          = ((call_func test.func {}).1.filter (fun c => !c.condition)).length := by
    unfold li_unit_run_test
    cases hres : call_func test.func {} with
    | mk ev out =>
      rw [hres] at hc
      cases out with
      | error e =>
        simp only at hc ⊢
        have hst := call_func_status test.func {} e (by rw [hres])
        refine ⟨trivial, hst, by simp [hc.1, hc.2.2.1], ?_, ?_⟩
        · simpa using hc.2.2.2.1
        · simpa using hc.2.2.2.2
      | ok s1 =>
        simp only at hc ⊢
        refine ⟨trivial, rfl, by simp [handle_test_exit, hc.1], ?_, ?_⟩
        · simpa [handle_test_exit] using hc.2.1
        · simpa [handle_test_exit] using hc.2.2
  obtain ⟨h1, h2, h3, h4, h5⟩ := hcore
  refine ⟨by rw [h1, hev], ?_, ?_, h3, ?_, ?_, ?_⟩
  · rw [h2, h5, h1]
    constructor
    · intro h c hc
      have hnil : (call_func test.func {}).1.filter (fun c => !c.condition) = [] := by
        apply List.length_eq_zero.1
        split_ifs at h with h0
        · simpa using h0
      have := List.filter_eq_nil_iff.1 hnil c hc
      simpa using this
    · intro h
      have hnil : (call_func test.func {}).1.filter (fun c => !c.condition) = [] := by
        apply List.filter_eq_nil_iff.2
        intro c hc
        simp [h c hc]
      simp [hnil]
  · rw [h2]
    split_ifs <;> simp
  · rw [h4, h5, h1]
    simp only [Bool.not_eq_true] at hsum
    rw [hsum]
  · intro result s
    unfold _li_unit_test_expect
    split_ifs <;> rfl
  · intro s
    simp [_li_unit_test_expect]

theorem li_unit_run_test_exit_witness :
    example_body.length < SIZE_RANGE
    ∧ (li_unit_run_test { func := example_body } {}).1
        = [Check.EXPECT true, Check.EXPECT false, Check.ASSERT true, Check.ASSERT false]
    ∧ (li_unit_run_test { func := example_body } {}).2.status = 1 :=
  ⟨by decide,
    (li_unit_run_test_exit { func := example_body } (by decide)).1.trans (by decide),
    ((li_unit_run_test_exit { func := example_body } (by decide)).2.2.1.resolve_left
      (by decide))⟩

/-! ## A single test by name -/

/-- C13: when no record of the list has the given name, `run_single_test_by_name`
returns 1 and the callable of no record has been invoked. -/
theorem run_single_test_by_name_no_match (li_unit_test_list : List li_unit_test)
    (name : String) (hno : ∀ t ∈ li_unit_test_list, t.name ≠ name) :
    run_single_test_by_name li_unit_test_list name = ([], SingleTestResult.returned 1) := by
  induction li_unit_test_list with
  | nil => rfl
  | cons t rest ih =>
    unfold run_single_test_by_name
    rw [if_neg (hno t (List.mem_cons_self _ _))]
    exact ih (fun u hu => hno u (List.mem_cons_of_mem _ hu))

theorem run_single_test_by_name_no_match_witness :
    run_single_test_by_name example_list "lithium.example.absent"
      = ([], SingleTestResult.returned 1) :=
  run_single_test_by_name_no_match example_list "lithium.example.absent" (by decide)

/-! ## Timespecs -/

/-- The difference has its nanoseconds in range and is the difference of the
points in time. -/
theorem timespec_subtract_range (a b : Timespec) (ha : 0 ≤ a.tv_nsec)
    (ha1 : a.tv_nsec < 1000000000) (hb : 0 ≤ b.tv_nsec) (hb1 : b.tv_nsec < 1000000000) :
    0 ≤ (li_util_timespec_subtract a b).tv_nsec
    ∧ (li_util_timespec_subtract a b).tv_nsec < 1000000000
    ∧ (li_util_timespec_subtract a b).tv_sec * 1000000000
        + (li_util_timespec_subtract a b).tv_nsec
      = (a.tv_sec * 1000000000 + a.tv_nsec) - (b.tv_sec * 1000000000 + b.tv_nsec) := by
  unfold li_util_timespec_subtract NSEC_PER_SEC
  split_ifs with h
  · simp only
    refine ⟨by omega, by omega, by omega⟩
  · simp only
    refine ⟨by omega, by omega, by omega⟩

/-- C14: for timespecs `a` and `b` with `0 <= tv_nsec < 1000000000`, the result
`r` of `li_util_timespec_subtract` has `0 <= r.tv_nsec < 1000000000` and
`r.tv_sec * 10^9 + r.tv_nsec` is the difference of the two points in time, also
when `a` is earlier than `b`; and a timespec minus itself is `(0, 0)`. -/
theorem li_util_timespec_subtract_correct (a b : Timespec) (ha : 0 ≤ a.tv_nsec)
    (ha1 : a.tv_nsec < 1000000000) (hb : 0 ≤ b.tv_nsec) (hb1 : b.tv_nsec < 1000000000) :
    0 ≤ (li_util_timespec_subtract a b).tv_nsec
    ∧ (li_util_timespec_subtract a b).tv_nsec < 1000000000
    ∧ (li_util_timespec_subtract a b).tv_sec * 1000000000
        + (li_util_timespec_subtract a b).tv_nsec
      = (a.tv_sec * 1000000000 + a.tv_nsec) - (b.tv_sec * 1000000000 + b.tv_nsec)
    ∧ li_util_timespec_subtract a a = { tv_sec := 0, tv_nsec := 0 } := by
  obtain ⟨h1, h2, h3⟩ := timespec_subtract_range a b ha ha1 hb hb1
  refine ⟨h1, h2, h3, ?_⟩
  unfold li_util_timespec_subtract
  simp

theorem li_util_timespec_subtract_correct_witness :
    (li_util_timespec_subtract ⟨1000, 456⟩ ⟨1002, 123456⟩).tv_sec * 1000000000
        + (li_util_timespec_subtract ⟨1000, 456⟩ ⟨1002, 123456⟩).tv_nsec
      = (1000 * 1000000000 + 456) - (1002 * 1000000000 + 123456)
    ∧ li_util_timespec_subtract ⟨1000, 456⟩ ⟨1002, 123456⟩ = ⟨-3, 999877000⟩ :=
  ⟨(li_util_timespec_subtract_correct ⟨1000, 456⟩ ⟨1002, 123456⟩ (by decide) (by decide)
      (by decide) (by decide)).2.2.1,
    by decide⟩

/-- C15: for timespecs with `0 <= tv_nsec < 1000000000`, `li_util_timespec_lt a b`
is true if and only if `a` is strictly earlier than `b` as a point in time; it is
irreflexive, asymmetric and transitive, and for `a != b` exactly one of
`lt a b`, `lt b a` holds. -/
theorem li_util_timespec_lt_correct (a b c : Timespec)
    (ha : 0 ≤ a.tv_nsec) (ha1 : a.tv_nsec < 1000000000)
    (hb : 0 ≤ b.tv_nsec) (hb1 : b.tv_nsec < 1000000000) :
    (li_util_timespec_lt a b = true
      ↔ a.tv_sec * 1000000000 + a.tv_nsec < b.tv_sec * 1000000000 + b.tv_nsec)
    ∧ li_util_timespec_lt a a = false
    ∧ (li_util_timespec_lt a b = true → li_util_timespec_lt b a = false)
    ∧ (li_util_timespec_lt a b = true → li_util_timespec_lt b c = true →
        li_util_timespec_lt a c = true)
    ∧ (a ≠ b → (li_util_timespec_lt a b = true ∧ li_util_timespec_lt b a = false)
        ∨ (li_util_timespec_lt a b = false ∧ li_util_timespec_lt b a = true)) := by
  have hlt : ∀ x y : Timespec, li_util_timespec_lt x y = true
      ↔ (x.tv_sec < y.tv_sec ∨ (x.tv_sec = y.tv_sec ∧ x.tv_nsec < y.tv_nsec)) := by
    intro x y
    unfold li_util_timespec_lt
    split_ifs with h1 h2
    · simp [h1]
    · simp [h2]
    · simp only [Bool.false_eq_true, false_iff]
      omega
  have hnot : ∀ x y : Timespec, li_util_timespec_lt x y = false
      ↔ ¬ (x.tv_sec < y.tv_sec ∨ (x.tv_sec = y.tv_sec ∧ x.tv_nsec < y.tv_nsec)) := by
    intro x y
    rw [← hlt x y]
    simp
  refine ⟨?_, ?_, ?_, ?_, ?_⟩
  · rw [hlt]
    omega
  · rw [hnot]
    omega
  · rw [hlt, hnot]
    omega
  · rw [hlt, hlt, hlt]
    omega
  · intro hne
    have hne2 : a.tv_sec ≠ b.tv_sec ∨ a.tv_nsec ≠ b.tv_nsec := by
      by_contra h
      apply hne
      cases a
      cases b
      simp only [Timespec.mk.injEq]
      simp only [ne_eq, not_or, not_not] at h
      exact h
    rw [hlt, hlt, hnot, hnot]
    omega

theorem li_util_timespec_lt_correct_witness :
    (li_util_timespec_lt ⟨1000, 456⟩ ⟨1000, 123456⟩ = true
      ↔ (1000 : Int) * 1000000000 + 456 < 1000 * 1000000000 + 123456)
    ∧ li_util_timespec_lt ⟨1000, 456⟩ ⟨1000, 456⟩ = false :=
  ⟨(li_util_timespec_lt_correct ⟨1000, 456⟩ ⟨1000, 123456⟩ ⟨1002, 456⟩ (by decide)
      (by decide) (by decide) (by decide)).1,
    (li_util_timespec_lt_correct ⟨1000, 456⟩ ⟨1000, 123456⟩ ⟨1002, 456⟩ (by decide)
      (by decide) (by decide) (by decide)).2.1⟩

/-! ## Short options -/

theorem optparse_cons (sscanf : List Char → List Char → Int × Option Value)
    (spec : li_cmdline) (argv_out : Bool) (flag : List Char) (rest : List (List Char))
    (store : Store) :
    optparse sscanf spec argv_out (flag :: rest) store
      = optparse_body sscanf spec argv_out flag rest store
          (optparse sscanf spec argv_out rest) (optparse sscanf spec argv_out rest.tail) := by
  cases rest with
  | nil => rw [optparse]; rfl
  | cons v rest1 => rw [optparse]; rfl

theorem matchopt_short_flag (spec : li_cmdline) (x : Char) (v : List Char)
    (hx : x ≠ '-') :
    matchopt spec ('-' :: x :: v)
      = some (find_shortopt spec.options x, if v ≠ [] then some v else none) := by
  unfold matchopt
  have h : ('-' :: x :: v).take 2 ≠ ['-', '-'] := by
    intro h
    have h1 : ['-', x] = ['-', '-'] := h
    exact hx (List.head_eq_of_cons_eq (List.tail_eq_of_cons_eq h1))
  rw [if_neg h]
  rfl

/-- C16, counterexample: with an option whose `shortopt` is `'-'` and takes a
string, the joined form `"--v"` is read as a long option and the parse fails,
while the separated form `"--"`, `"v"` ends the options and `"v"` is stored as
the positional argument. -/
theorem dash_option_joined_differs :
    (li_cmdline_parse example_sscanf dash_spec ["progname".toList, "--v".toList] false
        example_store).map (fun o => (o.result, o.store 0, o.store 1))
      = some (LI_CMDLINE_EXIT_FAILURE, Value.scanned (-1), Value.flag false)
    ∧ (li_cmdline_parse example_sscanf dash_spec
        ["progname".toList, "--".toList, "v".toList] false example_store).map
          (fun o => (o.result, o.store 0, o.store 1))
      = some (LI_CMDLINE_CONTINUE, Value.scanned (-1), Value.string (some "v".toList)) := by
  constructor <;> rfl

/-- C16, amended: for a short option `-x` with `x` other than `'-'` whose action
takes a value (`LI_CMDLINE_STRING`, `LI_CMDLINE_SCANF` or `LI_CMDLINE_CALLBACK`)
and a value `v` that is not empty, the parse gives the same result, the same
stored values and the same `*argv_out` for `"-xv"` as for `"-x"`, `"v"`, the
rest of `argv` being equal, wherever in the options the flag stands (`optparse`)
and when it is the first argument of `li_cmdline_parse`; and a flag `-y` whose
action is `LI_CMDLINE_STORE_TRUE` or `LI_CMDLINE_STORE_FALSE` stores true or
false and the parse goes on with the next argument. -/
theorem short_option_joined_eq_separated
    (sscanf : List Char → List Char → Int × Option Value) (spec : li_cmdline)
    (argv_out : Bool) (program_name : List Char) (x : Char) (v : List Char)
    (rest : List (List Char)) (store : Store) (option : li_cmdline_option)
    (hx : x ≠ '-') (hv : v ≠ [])
    (hopt : find_shortopt spec.options x = some option)
    (htype : option.action.type.value ≥ LI_CMDLINE_STRING.value) :
    optparse sscanf spec argv_out (('-' :: x :: v) :: rest) store
      = optparse sscanf spec argv_out (['-', x] :: v :: rest) store
    ∧ li_cmdline_parse sscanf spec (program_name :: ('-' :: x :: v) :: rest) argv_out store
      = li_cmdline_parse sscanf spec (program_name :: ['-', x] :: v :: rest) argv_out store
    ∧ (∀ (y : Char) (o : li_cmdline_option) (rest1 : List (List Char)) (store1 : Store),
        y ≠ '-' → find_shortopt spec.options y = some o →
        (o.action.type = LI_CMDLINE_STORE_TRUE →
          optparse sscanf spec argv_out (['-', y] :: rest1) store1
            = optparse sscanf spec argv_out rest1
                (store1.write o.action.dest (Value.flag true)))
        ∧ (o.action.type = LI_CMDLINE_STORE_FALSE →
          optparse sscanf spec argv_out (['-', y] :: rest1) store1
            = optparse sscanf spec argv_out rest1
                (store1.write o.action.dest (Value.flag false)))) := by
  have hhelp : option.action.type ≠ LI_CMDLINE_HELP := by
    intro h
    rw [h] at htype
    simp [li_cmdline_action_type.value] at htype
  have hjoined : ('-' :: x :: v) ≠ ['-', '-'] := by
    intro h
    exact hx (List.head_eq_of_cons_eq (List.tail_eq_of_cons_eq h))
  have hsep : ['-', x] ≠ ['-', '-'] := by
    intro h
    exact hx (List.head_eq_of_cons_eq (List.tail_eq_of_cons_eq h))
  have hcore : optparse sscanf spec argv_out (('-' :: x :: v) :: rest) store
      = optparse sscanf spec argv_out (['-', x] :: v :: rest) store := by
    rw [optparse_cons, optparse_cons]
    unfold optparse_body
    simp only [List.head?_cons, ne_eq, not_true_eq_false, ↓reduceIte]
    rw [if_neg hjoined, if_neg hsep, matchopt_short_flag spec x v hx,
      matchopt_short_flag spec x [] hx, hopt]
    simp only [ne_eq, hv, not_false_eq_true, ↓reduceIte, not_true_eq_false, hhelp, htype,
      List.tail_cons]
  refine ⟨hcore, ?_, ?_⟩
  · unfold li_cmdline_parse
    exact hcore
  · intro y o rest1 store1 hy ho
    have hy2 : ['-', y] ≠ ['-', '-'] := by
      intro h
      exact hy (List.head_eq_of_cons_eq (List.tail_eq_of_cons_eq h))
    constructor
    · intro ht
      rw [optparse_cons]
      unfold optparse_body
      simp only [List.head?_cons, ne_eq, not_true_eq_false, ↓reduceIte]
      rw [if_neg hy2, matchopt_short_flag spec y [] hy, ho]
      simp [ht, li_cmdline_action_type.value, complete_action]
    · intro ht
      rw [optparse_cons]
      unfold optparse_body
      simp only [List.head?_cons, ne_eq, not_true_eq_false, ↓reduceIte]
      rw [if_neg hy2, matchopt_short_flag spec y [] hy, ho]
      simp [ht, li_cmdline_action_type.value, complete_action]

theorem short_option_joined_eq_separated_witness :
    (li_cmdline_parse example_sscanf example_spec
        ["progname".toList, "-t15".toList, "-T".toList, "-qaaa".toList] false
        example_store).map (fun o => (o.result, o.store 0, o.store 1, o.store 2))
      = some (LI_CMDLINE_CONTINUE, Value.scanned 15, Value.flag true,
          Value.string (some "aaa".toList))
    ∧ li_cmdline_parse example_sscanf example_spec
        ["progname".toList, "-t15".toList, "-T".toList, "-qaaa".toList] false example_store
      = li_cmdline_parse example_sscanf example_spec
        ["progname".toList, "-t".toList, "15".toList, "-T".toList, "-qaaa".toList] false
        example_store :=
  ⟨by rfl,
    (short_option_joined_eq_separated example_sscanf example_spec false "progname".toList
      't' "15".toList ["-T".toList, "-qaaa".toList] example_store
      { shortopt := 't'
        action := { type := LI_CMDLINE_SCANF, format := ['%', 'd'], dest := 0 } }
      (by decide) (by decide) rfl (by decide)).2.1⟩

/-! ## The parse error message -/

/-- C17, the code at the failing input: on the first call (no message stored,
`allocation_size = 0`) the test `message_len < allocation_size` is false for
every message, nothing is allocated, and `memcpy` writes through the `NULL`
pointer: no message is stored. -/
theorem li_cmdline_set_parse_error_first_call (message : List Char) :
    li_cmdline_set_parse_error message {} = none := by
  unfold li_cmdline_set_parse_error
  simp

/-! ## The admission cursor -/

theorem reaped_index_admitted {l : List li_unit_test} {c : Nat} {children forked : List Int}
    {i : Nat} {t : li_unit_test} {p : Int} (hok : records_ok l c children forked)
    (hfind : find_test l p = some (i, t)) (hmem : p ∈ children) :
    i < c ∧ active t := by
  obtain ⟨h1, h2, h3, h4, h5, h6⟩ := hok
  obtain ⟨hget, htp, hlt⟩ := find_test_some hfind
  have hic : i < c := by
    obtain ⟨j, u, hj, hjc, hup⟩ := h5 p hmem
    by_contra hge
    exact find_test_first hfind j u (by omega) hj hup
  exact ⟨hic, (h4 i t hget hic).1 (by rw [htp]; exact hmem)⟩

theorem example_two_admitted_reachable :
    Reachable example_options example_list TEST_RUNNER_ITERATE_AGAIN example_two_admitted :=
  @Reachable.iterate example_options example_list
    { spawn_clock := some ⟨1000, 600⟩, fork := 102 }
    (test_runner_iterate example_options { spawn_clock := some ⟨1000, 500⟩, fork := 101 }
      (initial_state example_options example_list ⟨1000, 0⟩)).2
    (@Reachable.iterate example_options example_list
      { spawn_clock := some ⟨1000, 500⟩, fork := 101 }
      (initial_state example_options example_list ⟨1000, 0⟩)
      (@Reachable.start example_options example_list ⟨1000, 0⟩) (by decide))
    (by decide)

theorem handle_waitpid_shape_state (pid : Int) (status : Nat) (sys : Sys) (w : Runner) :
    handle_waitpid pid status sys w = (-1, w)
    ∨ ∃ (i : Nat) (test reaped : li_unit_test),
        find_test w.test_list pid = some (i, test)
        ∧ reaped.state
            = (if WIFEXITED status = true ∧ WEXITSTATUS status = 0 then _LI_UNIT_SUCCEEDED
              else if test.state = _LI_UNIT_PENDING_DEADLINE_EXCEEDED then
                _LI_UNIT_DEADLINE_EXCEEDED
              else _LI_UNIT_FAILED)
        ∧ handle_waitpid pid status sys w = (0, { w with
            running_jobs := wrap_int (w.running_jobs - 1)
            completed_tests := (w.completed_tests + 1) % UINT_RANGE
            test_list := w.test_list.set i reaped }) := by
  unfold handle_waitpid
  cases hclock : sys.reap_clock with
  | none => left; rfl
  | some now =>
    cases hfind : find_test w.test_list pid with
    | none => left; rfl
    | some r =>
      obtain ⟨i, test⟩ := r
      right
      simp only [TestState.value, ne_eq, OfNat.ofNat_ne_zero, not_false_eq_true, or_true,
        not_true_eq_false, ↓reduceIte]
      refine ⟨i, test, _, rfl, ?_, rfl⟩
      split_ifs <;> rfl

/-- C20, counterexample: a record in `_LI_UNIT_PENDING_DEADLINE_EXCEEDED` whose
worker is reported as exited normally with status 0 goes to
`_LI_UNIT_SUCCEEDED`, not to `_LI_UNIT_DEADLINE_EXCEEDED`: so does the second
record of `example_running`, and so ends the run in which the worker is killed
at 1002 s and then reported with status 0. -/
theorem pending_to_succeeded :
    (example_running.test_list[1]?).map (fun t => t.state)
      = some _LI_UNIT_PENDING_DEADLINE_EXCEEDED
    ∧ ((handle_waitpid 102 0 {} example_running).2.test_list[1]?).map (fun t => t.state)
      = some _LI_UNIT_SUCCEEDED
    ∧ (li_unit_run_tests example_setup [] late_exit_options
        [{ name := "lithium.example.sleeps" }] killed_exit_script).map
      (fun r => (r.1, r.2.test_list.map (fun t => t.state), r.2.events))
      = some (0, [_LI_UNIT_SUCCEEDED], [Event.kill 101 0]) := by
  refine ⟨?_, ?_, ?_⟩ <;> rfl

/-- C20, amended: in every iteration of a run (from a state the loop reaches,
with `waitpid` reporting only workers not yet waited for and `fork` returning
no pid twice) the state of each record stays as it is or changes along
`NOT_STARTED -> RUNNING`, `RUNNING -> {SUCCEEDED, FAILED,
PENDING_DEADLINE_EXCEEDED}` or `PENDING_DEADLINE_EXCEEDED -> {DEADLINE_EXCEEDED,
SUCCEEDED}`; a record in a terminal state does not change state. -/
theorem state_moves_forward (options : li_unit_runner_options)
    (test_list : List li_unit_test) (w : Runner) (sys : Sys)
    (hreach : Reachable options test_list TEST_RUNNER_ITERATE_AGAIN w)
    (hvalid : sys.valid w) :
    ∀ (i : Nat) (t t1 : li_unit_test), w.test_list[i]? = some t →
      (test_runner_iterate options sys w).2.test_list[i]? = some t1 →
      (t1.state = t.state ∨ state_step t.state t1.state)
      ∧ ((t.state = _LI_UNIT_SUCCEEDED ∨ t.state = _LI_UNIT_FAILED
          ∨ t.state = _LI_UNIT_DEADLINE_EXCEEDED) → t1.state = t.state) := by
  have hcore : ∀ (i : Nat) (t t1 : li_unit_test), w.test_list[i]? = some t →
      (test_runner_iterate options sys w).2.test_list[i]? = some t1 →
      (t1.state = t.state ∨ state_step t.state t1.state) := by
    have hok := records_invariant_holds options test_list _ w hreach (by decide)
    have hsame : ∀ (i : Nat) (t t1 : li_unit_test), w.test_list[i]? = some t →
        w.test_list[i]? = some t1 →
        (t1.state = t.state ∨ state_step t.state t1.state) := by
      intro i t t1 h1 h2
      rw [h1] at h2
      simp only [Option.some.injEq] at h2
      subst h2
      exact Or.inl rfl
    apply test_runner_iterate_cases options sys w
      (fun _ w1 => ∀ (i : Nat) (t t1 : li_unit_test), w.test_list[i]? = some t →
        w1.test_list[i]? = some t1 → (t1.state = t.state ∨ state_step t.state t1.state))
    · intro _ _
      exact hsame
    · intro _ _
      have hset : ∀ (test admitted : li_unit_test),
          w.test_list[w.remaining_tests]? = some test →
          test.state = _LI_UNIT_NOT_STARTED → admitted.state = _LI_UNIT_RUNNING →
          ∀ (i : Nat) (t t1 : li_unit_test), w.test_list[i]? = some t →
            (w.test_list.set w.remaining_tests admitted)[i]? = some t1 →
            (t1.state = t.state ∨ state_step t.state t1.state) := by
        intro test admitted hget hns hrun i t t1 h1 h2
        rcases getElem?_set_cases h2 with ⟨rfl, rfl⟩ | ⟨hne, hold⟩
        · rw [hget] at h1
          simp only [Option.some.injEq] at h1
          subst h1
          exact Or.inr (Or.inl ⟨hns, hrun⟩)
        · exact hsame i t t1 h1 hold
      rcases spawn_test_shape options.default_timeout sys w with h | h
      · rw [h]
        exact hsame
      · obtain ⟨test, admitted, hget, hns, hrun, -, h | ⟨-, -, -, h⟩⟩ := h
        · rw [h]
          exact hset test admitted hget hns hrun
        · rw [h]
          exact hset test admitted hget hns hrun
    · exact hsame
    · exact hsame
    · intro hpid
      rcases handle_waitpid_shape_state sys.waitpid sys.status sys
          { w with children := w.children.erase sys.waitpid } with h | h
      · rw [h]
        exact hsame
      · obtain ⟨i, test, reaped, hfind, hstate, h⟩ := h
        rw [h]
        obtain ⟨-, hact⟩ := reaped_index_admitted hok hfind (hvalid.2.2 hpid)
        obtain ⟨hget, -, -⟩ := find_test_some hfind
        intro j t t1 h1 h2
        rcases getElem?_set_cases h2 with ⟨rfl, rfl⟩ | ⟨hne, hold⟩
        · have hget1 : w.test_list[j]? = some test := hget
          rw [hget1] at h1
          simp only [Option.some.injEq] at h1
          subst h1
          right
          unfold state_step
          rcases hact with hr | hp
          · rw [hstate, hr]
            split_ifs <;> simp_all
          · rw [hstate, hp]
            split_ifs <;> simp_all
        · exact hsame j t t1 h1 hold
    · obtain ⟨t, h⟩ := handle_status_update_shape options.status_update_frequency sys w
      rw [h]
      exact hsame
    · intro now i _ hscan
      obtain ⟨j, u, hj, hget, hp, -⟩ := scan_deadlines_expired hscan
      obtain ⟨hget1, -⟩ := getElem?_take_some hget
      have hij : i = j := by omega
      subst hij
      rcases handle_deadline_shape i sys w with h | ⟨test, hget2, h | h⟩
      · rw [h]
        exact hsame
      · rw [h]
        exact hsame
      · rw [h]
        rw [hget1] at hget2
        simp only [Option.some.injEq] at hget2
        subst hget2
        intro k t t1 h1 h2
        rcases getElem?_set_cases h2 with ⟨rfl, rfl⟩ | ⟨hne, hold⟩
        · rw [hget1] at h1
          simp only [Option.some.injEq] at h1
          subst h1
          exact Or.inr (Or.inr (Or.inl ⟨hp.1, Or.inr (Or.inr rfl)⟩))
        · exact hsame k t t1 h1 hold
    · intro now nd _ _
      exact hsame
  intro i t t1 h1 h2
  have h := hcore i t t1 h1 h2
  refine ⟨h, ?_⟩
  intro hterm
  rcases h with h | h
  · exact h
  · unfold state_step at h
    rcases hterm with ht | ht | ht <;> rw [ht] at h <;> simp at h

theorem state_moves_forward_witness :
    example_record_before.state = _LI_UNIT_RUNNING
    ∧ example_record_after.state = _LI_UNIT_FAILED
    ∧ (example_record_after.state = example_record_before.state
        ∨ state_step example_record_before.state example_record_after.state) :=
  ⟨by decide, by decide,
    (state_moves_forward example_options example_list example_two_admitted example_reap
      example_two_admitted_reachable (by decide) 0 example_record_before
      example_record_after (by decide) (by decide)).1⟩

/-! ## The guard of `handle_waitpid` -/

/-- C21, the code: the test of the state in `handle_waitpid`,
`!(state == _LI_UNIT_RUNNING || _LI_UNIT_PENDING_DEADLINE_EXCEEDED)`, is false
for every state. Whenever the clock is read and a record with the pid is found,
whatever the state of that record, the call returns 0, decrements
`running_jobs`, increments `completed_tests` and writes a terminal state and an
elapsed time into the record. -/
theorem handle_waitpid_guard_never_fails (pid : Int) (status : Nat) (sys : Sys)
    (w : Runner) (now : Timespec) (i : Nat) (test : li_unit_test)
    (hclock : sys.reap_clock = some now)
    (hfound : find_test w.test_list pid = some (i, test)) :
    (handle_waitpid pid status sys w).1 = 0
    ∧ (handle_waitpid pid status sys w).2.running_jobs = wrap_int (w.running_jobs - 1)
    ∧ (handle_waitpid pid status sys w).2.completed_tests
        = (w.completed_tests + 1) % UINT_RANGE
    ∧ (handle_waitpid pid status sys w).2.test_list[i]?
        = some { test with
            elapsed_time := li_util_timespec_subtract now test.start_time
            state :=
              if WIFEXITED status = true ∧ WEXITSTATUS status = 0 then _LI_UNIT_SUCCEEDED
              else if test.state = _LI_UNIT_PENDING_DEADLINE_EXCEEDED then
                _LI_UNIT_DEADLINE_EXCEEDED
              else _LI_UNIT_FAILED } := by
  obtain ⟨-, -, hlt⟩ := find_test_some hfound
  simp only [handle_waitpid, hclock, hfound, TestState.value]
  simp only [ne_eq, OfNat.ofNat_ne_zero, not_false_eq_true, or_true, not_true_eq_false,
    ↓reduceIte, List.getElem?_set_self hlt, Option.some.injEq, true_and]
  split_ifs <;> rfl

theorem handle_waitpid_guard_never_fails_witness :
    (example_terminal.test_list[0]?).map (fun t => t.state) = some _LI_UNIT_SUCCEEDED
    ∧ (handle_waitpid 101 256 { reap_clock := some ⟨1003, 0⟩ } example_terminal).1 = 0
    ∧ (handle_waitpid 101 256 { reap_clock := some ⟨1003, 0⟩ } example_terminal).2.running_jobs
        = -1
    ∧ (handle_waitpid 101 256 { reap_clock := some ⟨1003, 0⟩ }
        example_terminal).2.completed_tests = 2
    ∧ ((handle_waitpid 101 256 { reap_clock := some ⟨1003, 0⟩ }
        example_terminal).2.test_list[0]?).map (fun t => t.state) = some _LI_UNIT_FAILED :=
  have h := handle_waitpid_guard_never_fails 101 256 { reap_clock := some ⟨1003, 0⟩ }
    example_terminal ⟨1003, 0⟩ 0
    { name := "lithium.example.passes", state := _LI_UNIT_SUCCEEDED, pid := 101,
      has_deadline := true, start_time := ⟨1000, 500⟩, elapsed_time := ⟨0, 600⟩,
      deadline := ⟨1005, 500⟩ } rfl (by decide)
  ⟨by decide, h.1, h.2.1, h.2.2.1, by rw [h.2.2.2]; rfl⟩

/-! ## Failure of `fork` -/

/-- C22, counterexample: the first record of the example list is admitted and
`fork` fails. `spawn_test` returns -1, and the record is in `_LI_UNIT_RUNNING`,
not in `_LI_UNIT_NOT_STARTED`; the cursor has moved past it and `running_jobs`
is 1. -/
theorem failed_fork_leaves_running :
    (spawn_test 5 failed_fork (initial_state example_options example_list ⟨1000, 0⟩)).1 = -1
    ∧ (spawn_test 5 failed_fork
        (initial_state example_options example_list ⟨1000, 0⟩)).2.test_list.map
          (fun t => t.state)
      = [_LI_UNIT_RUNNING, _LI_UNIT_NOT_STARTED, _LI_UNIT_NOT_STARTED]
    ∧ (spawn_test 5 failed_fork
        (initial_state example_options example_list ⟨1000, 0⟩)).2.remaining_tests = 1
    ∧ (spawn_test 5 failed_fork
        (initial_state example_options example_list ⟨1000, 0⟩)).2.running_jobs = 1 := by
  refine ⟨?_, ?_, ?_, ?_⟩ <;> rfl

/-- C22, amended: when the record at the cursor is `_LI_UNIT_NOT_STARTED`, the
clock is read and `fork` fails, `spawn_test` returns -1 after it has moved the
record to `_LI_UNIT_RUNNING`, stored its start time, moved the cursor past it
and incremented `running_jobs`; the pid and the deadline of the record, every
other record and the set of workers are as before. An iteration that admits
then returns `TEST_RUNNER_ITERATE_FAILURE`. -/
theorem spawn_test_fork_failure (d : Int) (sys : Sys) (w : Runner) (test : li_unit_test)
    (t : Timespec) (hget : w.test_list[w.remaining_tests]? = some test)
    (hstate : test.state = _LI_UNIT_NOT_STARTED) (hclock : sys.spawn_clock = some t)
    (hfork : sys.fork < 0) :
    spawn_test d sys w
      = (-1, { w with
          test_list := w.test_list.set w.remaining_tests
            { test with state := _LI_UNIT_RUNNING, start_time := t }
          remaining_tests := w.remaining_tests + 1
          running_jobs := wrap_int (w.running_jobs + 1) })
    ∧ ((spawn_test d sys w).2.test_list[w.remaining_tests]?).map (fun r => r.state)
        = some _LI_UNIT_RUNNING
    ∧ ∀ options : li_unit_runner_options, options.default_timeout = d →
        to_unsigned w.running_jobs < options.parallelism →
        (test_runner_iterate options sys w).1 = TEST_RUNNER_ITERATE_FAILURE := by
  have hlt := getElem?_lt hget
  have hspawn : spawn_test d sys w
      = (-1, { w with
          test_list := w.test_list.set w.remaining_tests
            { test with state := _LI_UNIT_RUNNING, start_time := t }
          remaining_tests := w.remaining_tests + 1
          running_jobs := wrap_int (w.running_jobs + 1) }) := by
    simp only [spawn_test, hget, hstate, hclock, hfork, ne_eq, not_true_eq_false,
      ↓reduceIte]
  refine ⟨hspawn, ?_, ?_⟩
  · rw [hspawn]
    simp [List.getElem?_set_self hlt]
  · intro options hd hjobs
    unfold test_runner_iterate
    rw [if_neg (by omega), if_pos ⟨hjobs, hlt⟩, hd, hspawn]
    rfl

theorem spawn_test_fork_failure_witness :
    ((spawn_test 5 failed_fork
        (initial_state example_options example_list ⟨1000, 0⟩)).2.test_list[0]?).map
          (fun r => r.state) = some _LI_UNIT_RUNNING
    ∧ (test_runner_iterate example_options failed_fork
        (initial_state example_options example_list ⟨1000, 0⟩)).1
      = TEST_RUNNER_ITERATE_FAILURE :=
  have h := spawn_test_fork_failure 5 failed_fork
    (initial_state example_options example_list ⟨1000, 0⟩)
    { name := "lithium.example.fails" } ⟨1000, 500⟩ rfl rfl rfl (by decide)
  ⟨h.2.1, h.2.2 example_options rfl (by decide)⟩

/-! ## The wait -/

theorem timespec_lt_iff (a b : Timespec) :
    li_util_timespec_lt a b = true
      ↔ a.tv_sec < b.tv_sec ∨ (a.tv_sec = b.tv_sec ∧ a.tv_nsec < b.tv_nsec) := by
  unfold li_util_timespec_lt
  split_ifs with h1 h2
  · simp [h1]
  · simp [h2]
  · simp only [Bool.false_eq_true, false_iff]
    omega

theorem timespec_lt_false_iff (a b : Timespec) :
    li_util_timespec_lt a b = false
      ↔ b.tv_sec < a.tv_sec ∨ (a.tv_sec = b.tv_sec ∧ b.tv_nsec ≤ a.tv_nsec) := by
  rw [← Bool.not_eq_true, timespec_lt_iff]
  omega

theorem timespec_subtract_neg_iff (a b : Timespec) :
    (li_util_timespec_subtract a b).tv_sec < 0 ↔ li_util_timespec_lt a b = true := by
  rw [timespec_lt_iff]
  unfold li_util_timespec_subtract
  split_ifs with h
  · simp only
    omega
  · simp only
    omega

theorem scan_deadlines_next {now : Timespec} {l : List li_unit_test} {k : Nat}
    {nd0 nd : Timespec} (h : scan_deadlines now l k nd0 = ScanResult.next_deadline nd) :
    (∀ (i : Nat) (t : li_unit_test), l[i]? = some t → ¬ past_deadline now t)
    ∧ (nd = nd0 ∨ ∃ (i : Nat) (t : li_unit_test), l[i]? = some t
        ∧ t.state = _LI_UNIT_RUNNING ∧ t.has_deadline = true ∧ t.deadline = nd)
    ∧ li_util_timespec_lt nd0 nd = false
    ∧ ∀ (i : Nat) (t : li_unit_test), l[i]? = some t → t.state = _LI_UNIT_RUNNING →
        t.has_deadline = true → li_util_timespec_lt t.deadline nd = false := by
  induction l generalizing k nd0 with
  | nil =>
    simp only [scan_deadlines, ScanResult.next_deadline.injEq] at h
    subst h
    refine ⟨by simp, Or.inl rfl, ?_, by simp⟩
    rw [timespec_lt_false_iff]
    omega
  | cons a l ih =>
    unfold scan_deadlines at h
    by_cases ha : a.state = _LI_UNIT_RUNNING ∧ a.has_deadline = true
        ∧ li_util_timespec_lt a.deadline now = true
    · rw [if_pos ha] at h
      simp at h
    rw [if_neg ha] at h
    by_cases hb : a.state = _LI_UNIT_RUNNING ∧ a.has_deadline = true
        ∧ li_util_timespec_lt a.deadline nd0 = true
    · rw [if_pos hb] at h
      obtain ⟨hnone, hmem, hle, hmin⟩ := ih h
      have hb3 := (timespec_lt_iff _ _).1 hb.2.2
      have hle1 := (timespec_lt_false_iff _ _).1 hle
      refine ⟨?_, ?_, ?_, ?_⟩
      · intro i t hget
        cases i with
        | zero =>
          simp only [List.getElem?_cons_zero, Option.some.injEq] at hget
          subst hget
          exact ha
        | succ i1 =>
          simp only [List.getElem?_cons_succ] at hget
          exact hnone i1 t hget
      · right
        rcases hmem with hmem | ⟨i, t, hget, h1, h2, h3⟩
        · exact ⟨0, a, by simp, hb.1, hb.2.1, hmem.symm⟩
        · exact ⟨i + 1, t, by simpa using hget, h1, h2, h3⟩
      · rw [timespec_lt_false_iff]
        omega
      · intro i t hget h1 h2
        cases i with
        | zero =>
          simp only [List.getElem?_cons_zero, Option.some.injEq] at hget
          subst hget
          exact hle
        | succ i1 =>
          simp only [List.getElem?_cons_succ] at hget
          exact hmin i1 t hget h1 h2
    · rw [if_neg hb] at h
      obtain ⟨hnone, hmem, hle, hmin⟩ := ih h
      have hle1 := (timespec_lt_false_iff _ _).1 hle
      refine ⟨?_, ?_, hle, ?_⟩
      · intro i t hget
        cases i with
        | zero =>
          simp only [List.getElem?_cons_zero, Option.some.injEq] at hget
          subst hget
          exact ha
        | succ i1 =>
          simp only [List.getElem?_cons_succ] at hget
          exact hnone i1 t hget
      · rcases hmem with hmem | ⟨i, t, hget, h1, h2, h3⟩
        · exact Or.inl hmem
        · exact Or.inr ⟨i + 1, t, by simpa using hget, h1, h2, h3⟩
      · intro i t hget h1 h2
        cases i with
        | zero =>
          simp only [List.getElem?_cons_zero, Option.some.injEq] at hget
          subst hget
          have h3 : li_util_timespec_lt a.deadline nd0 = false := by
            cases hlt : li_util_timespec_lt a.deadline nd0 with
            | false => rfl
            | true => exact absurd ⟨h1, h2, hlt⟩ hb
          have h4 := (timespec_lt_false_iff _ _).1 h3
          rw [timespec_lt_false_iff]
          omega
        | succ i1 =>
          simp only [List.getElem?_cons_succ] at hget
          exact hmin i1 t hget h1 h2

theorem scan_deadlines_none_expired {now : Timespec} {l : List li_unit_test} (k : Nat)
    (nd0 : Timespec)
    (h : ∀ (i : Nat) (t : li_unit_test), l[i]? = some t → ¬ past_deadline now t) :
    ∃ nd, scan_deadlines now l k nd0 = ScanResult.next_deadline nd := by
  cases hscan : scan_deadlines now l k nd0 with
  | expired j =>
    obtain ⟨i, t, -, hget, hp, -⟩ := scan_deadlines_expired hscan
    exact absurd hp (h i t hget)
  | next_deadline nd => exact ⟨nd, rfl⟩

/-- What holds of the deadline chosen when no admitted record is past its
deadline: it is the deadline of the status report or of an admitted running
record, and none of these is earlier. -/
theorem chosen_next_deadline_min (now : Timespec) (w : Runner)
    (hnone : ∀ (i : Nat) (t : li_unit_test), i < w.remaining_tests →
      w.test_list[i]? = some t → ¬ past_deadline now t) :
    scan_deadlines now (w.test_list.take w.remaining_tests) 0 w.status_update_deadline
      = ScanResult.next_deadline (chosen_next_deadline now w)
    ∧ (chosen_next_deadline now w = w.status_update_deadline
        ∨ ∃ (i : Nat) (t : li_unit_test), i < w.remaining_tests ∧ w.test_list[i]? = some t
          ∧ t.state = _LI_UNIT_RUNNING ∧ t.has_deadline = true
          ∧ t.deadline = chosen_next_deadline now w)
    ∧ li_util_timespec_lt w.status_update_deadline (chosen_next_deadline now w) = false
    ∧ ∀ (i : Nat) (t : li_unit_test), i < w.remaining_tests → w.test_list[i]? = some t →
        t.state = _LI_UNIT_RUNNING → t.has_deadline = true →
        li_util_timespec_lt t.deadline (chosen_next_deadline now w) = false := by
  obtain ⟨nd, hscan⟩ := @scan_deadlines_none_expired now
    (w.test_list.take w.remaining_tests) 0 w.status_update_deadline
    (fun i t hget => hnone i t (getElem?_take_some hget).2 (getElem?_take_some hget).1)
  have hchosen : chosen_next_deadline now w = nd := by
    unfold chosen_next_deadline
    rw [hscan]
  rw [hchosen]
  obtain ⟨-, hmem, hle, hmin⟩ := scan_deadlines_next hscan
  refine ⟨hscan, ?_, hle, ?_⟩
  · rcases hmem with hmem | ⟨i, t, hget, h1, h2, h3⟩
    · exact Or.inl hmem
    · exact Or.inr ⟨i, t, (getElem?_take_some hget).2, (getElem?_take_some hget).1, h1, h2, h3⟩
  · intro i t hi hget h1 h2
    exact hmin i t (by rw [List.getElem?_take, if_pos hi, hget]) h1 h2

/-- The iteration that reaches the wait: its state afterwards. -/
theorem test_runner_iterate_wait (options : li_unit_runner_options) (sys : Sys)
    (w : Runner) (now nd : Timespec)
    (hbusy : ¬ (w.running_jobs = 0 ∧ w.test_list.length ≤ w.remaining_tests))
    (hfull : ¬ (to_unsigned w.running_jobs < options.parallelism
      ∧ w.remaining_tests < w.test_list.length))
    (hread : sys.read ≤ 0) (hwait : sys.waitpid = 0) (hnow : sys.now = some now)
    (hreport : ¬ (now.tv_sec ≥ w.status_update_deadline.tv_sec
      ∧ now.tv_nsec ≥ w.status_update_deadline.tv_nsec))
    (hscan : scan_deadlines now (w.test_list.take w.remaining_tests) 0
      w.status_update_deadline = ScanResult.next_deadline nd) :
    (test_runner_iterate options sys w).2
      = { w with events := Event.pselect (li_util_timespec_subtract nd now) :: w.events } := by
  unfold test_runner_iterate
  rw [if_neg hbusy, if_neg hfull, if_neg (by omega), if_neg (by omega),
    if_neg (by omega), hnow]
  simp only [hreport, ↓reduceIte, hscan]
  split_ifs <;> rfl

/-- C23, the code: in an iteration that reaches the wait (nothing to finish or
admit, nothing read, no worker to reap, the test for the status report false, no
admitted record past its deadline) the timeout passed to `pselect` is the
deadline chosen minus `now`, and its `tv_sec` is negative exactly when the
deadline of the status report is earlier than `now`, which the test for the
report lets through when `now.tv_sec` is larger and `now.tv_nsec` is smaller
than the fields of that deadline. -/
theorem pselect_timeout_negative_iff (options : li_unit_runner_options) (sys : Sys)
    (w : Runner) (now : Timespec)
    (hbusy : ¬ (w.running_jobs = 0 ∧ w.test_list.length ≤ w.remaining_tests))
    (hfull : ¬ (to_unsigned w.running_jobs < options.parallelism
      ∧ w.remaining_tests < w.test_list.length))
    (hread : sys.read ≤ 0) (hwait : sys.waitpid = 0) (hnow : sys.now = some now)
    (hreport : ¬ (now.tv_sec ≥ w.status_update_deadline.tv_sec
      ∧ now.tv_nsec ≥ w.status_update_deadline.tv_nsec))
    (hnone : ∀ (i : Nat) (t : li_unit_test), i < w.remaining_tests →
      w.test_list[i]? = some t → ¬ past_deadline now t) :
    (test_runner_iterate options sys w).2.events
      = Event.pselect (li_util_timespec_subtract (chosen_next_deadline now w) now) :: w.events
    ∧ ((li_util_timespec_subtract (chosen_next_deadline now w) now).tv_sec < 0
        ↔ li_util_timespec_lt w.status_update_deadline now = true)
    ∧ ((li_util_timespec_subtract (chosen_next_deadline now w) now).tv_sec < 0
        ↔ w.status_update_deadline.tv_sec < now.tv_sec
          ∧ now.tv_nsec < w.status_update_deadline.tv_nsec) := by
  obtain ⟨hscan, hmem, hle, -⟩ := chosen_next_deadline_min now w hnone
  have hiff : (li_util_timespec_subtract (chosen_next_deadline now w) now).tv_sec < 0
      ↔ li_util_timespec_lt w.status_update_deadline now = true := by
    rw [timespec_subtract_neg_iff]
    have hle1 := (timespec_lt_false_iff _ _).1 hle
    constructor
    · intro hneg
      rcases hmem with hmem | ⟨i, t, hi, hget, h1, h2, h3⟩
      · rw [← hmem]
        exact hneg
      · exfalso
        apply hnone i t hi hget
        refine ⟨h1, h2, ?_⟩
        rw [h3]
        exact hneg
    · intro hst
      have h1 := (timespec_lt_iff _ _).1 hst
      rw [timespec_lt_iff]
      omega
  refine ⟨?_, hiff, ?_⟩
  · rw [test_runner_iterate_wait options sys w now _ hbusy hfull hread hwait hnow hreport
      hscan]
  · rw [hiff, timespec_lt_iff]
    omega

theorem pselect_timeout_negative_iff_witness :
    (test_runner_iterate long_timeout_options { now := some ⟨1016, 0⟩, pselect := -1 }
        late_report_running)
      = (TEST_RUNNER_ITERATE_FAILURE,
          { late_report_running with events := [Event.pselect ⟨-1, 500000⟩] })
    ∧ (li_util_timespec_subtract (chosen_next_deadline ⟨1016, 0⟩ late_report_running)
        ⟨1016, 0⟩).tv_sec < 0
    ∧ (li_unit_run_tests late_report_setup [] long_timeout_options
        [{ name := "lithium.example.sleeps" }] late_report_script).map
      (fun r => (r.1, r.2.events)) = some (-1, [Event.pselect ⟨-1, 500000⟩]) :=
  ⟨by rfl,
    (pselect_timeout_negative_iff long_timeout_options
      { now := some ⟨1016, 0⟩, pselect := -1 } late_report_running ⟨1016, 0⟩
      (by decide) (by decide) (by decide) (by decide) rfl (by decide)
      (by
        intro i t hi hget
        have hi0 : i = 0 := by
          have : late_report_running.remaining_tests = 1 := rfl
          omega
        subst hi0
        have h0 : late_report_running.test_list[0]? = some late_report_record := rfl
        have ht : late_report_record = t := Option.some.inj (h0.symm.trans hget)
        subst ht
        decide)).2.2.mpr ⟨by decide, by decide⟩,
    by rfl⟩

/-! ## The scan of the admitted records -/

/-- C24: in an iteration that reaches the scan for deadlines (nothing to finish
or admit, nothing read, no worker to reap, the test for the status report false)
at the time `now`, only the records before the cursor count. If the record at
position `i` before the cursor is running with a deadline earlier than `now`,
and no record before it is so, `kill` is called for its pid and, unless `kill`
fails, that record goes to `_LI_UNIT_PENDING_DEADLINE_EXCEEDED`; nothing else
changes. If no record before the cursor is so, the iteration waits, with the
timeout `chosen_next_deadline now w` minus `now` and nothing else changed, and
the deadline chosen is the deadline of the status report or of a running record
with a deadline before the cursor, none of these being earlier under
`li_util_timespec_lt`. In both cases a record that is not running, has no
deadline or is not before the cursor is as it was. -/
theorem deadline_scan_correct (options : li_unit_runner_options) (sys : Sys)
    (w : Runner) (now : Timespec)
    (hbusy : ¬ (w.running_jobs = 0 ∧ w.test_list.length ≤ w.remaining_tests))
    (hfull : ¬ (to_unsigned w.running_jobs < options.parallelism
      ∧ w.remaining_tests < w.test_list.length))
    (hread : sys.read ≤ 0) (hwait : sys.waitpid = 0) (hnow : sys.now = some now)
    (hreport : ¬ (now.tv_sec ≥ w.status_update_deadline.tv_sec
      ∧ now.tv_nsec ≥ w.status_update_deadline.tv_nsec)) :
    (∀ (i : Nat) (test : li_unit_test), i < w.remaining_tests →
      w.test_list[i]? = some test → past_deadline now test →
      (∀ (j : Nat) (t : li_unit_test), j < i → w.test_list[j]? = some t →
        ¬ past_deadline now t) →
      test_runner_iterate options sys w
        = (TEST_RUNNER_ITERATE_AGAIN, { w with
            events := Event.kill test.pid sys.kill :: w.events
            test_list :=
              if sys.kill < 0 then w.test_list
              else w.test_list.set i
                { test with state := _LI_UNIT_PENDING_DEADLINE_EXCEEDED } }))
    ∧ ((∀ (i : Nat) (t : li_unit_test), i < w.remaining_tests →
        w.test_list[i]? = some t → ¬ past_deadline now t) →
      (test_runner_iterate options sys w).2
        = { w with events :=
            Event.pselect (li_util_timespec_subtract (chosen_next_deadline now w) now)
              :: w.events }
      ∧ (chosen_next_deadline now w = w.status_update_deadline
          ∨ ∃ (i : Nat) (t : li_unit_test), i < w.remaining_tests
            ∧ w.test_list[i]? = some t ∧ t.state = _LI_UNIT_RUNNING
            ∧ t.has_deadline = true ∧ t.deadline = chosen_next_deadline now w)
      ∧ li_util_timespec_lt w.status_update_deadline (chosen_next_deadline now w) = false
      ∧ ∀ (i : Nat) (t : li_unit_test), i < w.remaining_tests →
          w.test_list[i]? = some t → t.state = _LI_UNIT_RUNNING → t.has_deadline = true →
          li_util_timespec_lt t.deadline (chosen_next_deadline now w) = false)
    ∧ ∀ (j : Nat) (t : li_unit_test), w.test_list[j]? = some t →
        t.state ≠ _LI_UNIT_RUNNING ∨ t.has_deadline = false ∨ w.remaining_tests ≤ j →
        (test_runner_iterate options sys w).2.test_list[j]? = some t := by
  have hkill : ∀ (i : Nat) (test : li_unit_test), w.test_list[i]? = some test →
      scan_deadlines now (w.test_list.take w.remaining_tests) 0 w.status_update_deadline
        = ScanResult.expired i →
      test_runner_iterate options sys w
        = (TEST_RUNNER_ITERATE_AGAIN, { w with
            events := Event.kill test.pid sys.kill :: w.events
            test_list :=
              if sys.kill < 0 then w.test_list
              else w.test_list.set i
                { test with state := _LI_UNIT_PENDING_DEADLINE_EXCEEDED } }) := by
    intro i test hget hscan
    unfold test_runner_iterate
    rw [if_neg hbusy, if_neg hfull, if_neg (by omega), if_neg (by omega),
      if_neg (by omega), hnow]
    simp only [hreport, ↓reduceIte, hscan, handle_deadline, hget]
    split_ifs <;> rfl
  refine ⟨?_, ?_, ?_⟩
  · intro i test hi hget hpast hfirst
    apply hkill i test hget
    have htake : (w.test_list.take w.remaining_tests)[i]? = some test := by
      rw [List.getElem?_take, if_pos hi, hget]
    have := scan_deadlines_first 0 w.status_update_deadline htake hpast
      (fun j t hj hg => hfirst j t hj (getElem?_take_some hg).1)
    simpa using this
  · intro hnone
    obtain ⟨hscan, hmem, hle, hmin⟩ := chosen_next_deadline_min now w hnone
    exact ⟨test_runner_iterate_wait options sys w now _ hbusy hfull hread hwait hnow hreport
      hscan, hmem, hle, hmin⟩
  · intro j t hget hnot
    cases hscan : scan_deadlines now (w.test_list.take w.remaining_tests) 0
        w.status_update_deadline with
    | expired i =>
      obtain ⟨i1, test, hi1, hget1, hpast, -⟩ := scan_deadlines_expired hscan
      have hi : i = i1 := by omega
      subst hi
      obtain ⟨hget2, hlt⟩ := getElem?_take_some hget1
      rw [hkill i test hget2 hscan]
      by_cases hk : sys.kill < 0
      · simp only [hk, ↓reduceIte]
        exact hget
      · simp only [hk, ↓reduceIte]
        have hne : i ≠ j := by
          intro hij
          subst hij
          rw [hget2] at hget
          have ht := Option.some.inj hget
          subst ht
          rcases hnot with h1 | h1 | h1
          · exact h1 hpast.1
          · rw [hpast.2.1] at h1
            exact Bool.noConfusion h1
          · omega
        rw [List.getElem?_set_ne hne]
        exact hget
    | next_deadline nd =>
      rw [test_runner_iterate_wait options sys w now nd hbusy hfull hread hwait hnow
        hreport hscan]
      exact hget

theorem deadline_scan_correct_witness :
    ((test_runner_iterate example_options { now := some ⟨1006, 0⟩ }
        example_running).2.test_list.map (fun t => t.state)
      = [_LI_UNIT_PENDING_DEADLINE_EXCEEDED, _LI_UNIT_PENDING_DEADLINE_EXCEEDED,
          _LI_UNIT_NOT_STARTED]
      ∧ (test_runner_iterate example_options { now := some ⟨1006, 0⟩ }
        example_running).2.events = [Event.kill 101 0, Event.kill 102 0])
    ∧ (chosen_next_deadline ⟨1001, 400⟩ example_running = ⟨1005, 500⟩
      ∧ (test_runner_iterate example_options { now := some ⟨1001, 400⟩ } example_running).2
        = { example_running with
            events := [Event.pselect ⟨4, 100⟩, Event.kill 102 0] }) :=
  have h := deadline_scan_correct example_options { now := some ⟨1006, 0⟩ }
    example_running ⟨1006, 0⟩ (by decide) (by decide) (by decide) (by decide) rfl
    (by decide)
  have h1 := deadline_scan_correct example_options { now := some ⟨1001, 400⟩ }
    example_running ⟨1001, 400⟩ (by decide) (by decide) (by decide) (by decide) rfl
    (by decide)
  ⟨by
    rw [h.1 0
      { name := "lithium.example.fails", state := _LI_UNIT_RUNNING, pid := 101,
        has_deadline := true, start_time := ⟨1000, 500⟩, deadline := ⟨1005, 500⟩ }
      (by decide) rfl (by decide) (fun j _ hj => absurd hj (Nat.not_lt_zero j))]
    exact ⟨rfl, rfl⟩,
  by
    have hnone : ∀ (i : Nat) (t : li_unit_test), i < example_running.remaining_tests →
        example_running.test_list[i]? = some t → ¬ past_deadline ⟨1001, 400⟩ t := by
      intro i t hi hget
      have hi2 : i < 2 := hi
      interval_cases i
      · have ht := Option.some.inj hget
        subst ht
        decide
      · have ht := Option.some.inj hget
        subst ht
        decide
    rw [(h1.2.1 hnone).1]
    exact ⟨rfl, rfl⟩⟩

/-! ## Tests that share a name -/

/-- C25, counterexample: the second and the third record of `duplicate_list`
have the name asked for. Only the callable of the second record is invoked: the
process ends in `li_unit_run_test` with status 0 and two successful assertions,
and the third record, whose body fails, is not run. -/
theorem duplicate_name_runs_first_only :
    (duplicate_list.filter (fun t => t.name = "lithium.example.twice")).length = 2
    ∧ (run_single_test_by_name duplicate_list "lithium.example.twice").1.map
        (fun t => t.func) = [[Check.EXPECT true, Check.ASSERT true]]
    ∧ (run_single_test_by_name duplicate_list "lithium.example.twice").2
      = SingleTestResult.exited
          { status := 0, premature := false
            counters := { successful_assertions := 2, failed_assertions := 0 } } := by
  refine ⟨?_, ?_, ?_⟩ <;> rfl

/-- C25, amended: when a record of the list has the name asked for,
`run_single_test_by_name` invokes the callable of the first such record and of
no other record, and the process ends in `li_unit_run_test` with the exit status
of that test; the function does not return. -/
theorem run_single_test_by_name_first_match (li_unit_test_list : List li_unit_test)
    (name : String) (i : Nat) (test : li_unit_test)
    (hget : li_unit_test_list[i]? = some test) (hname : test.name = name)
    (hfirst : ∀ (j : Nat) (t : li_unit_test), j < i → li_unit_test_list[j]? = some t →
      t.name ≠ name) :
    run_single_test_by_name li_unit_test_list name
      = ([test], SingleTestResult.exited (li_unit_run_test test {}).2) := by
  induction li_unit_test_list generalizing i with
  | nil => simp at hget
  | cons a l ih =>
    unfold run_single_test_by_name
    cases i with
    | zero =>
      simp only [List.getElem?_cons_zero, Option.some.injEq] at hget
      subst hget
      rw [if_pos hname]
    | succ i1 =>
      simp only [List.getElem?_cons_succ] at hget
      rw [if_neg (hfirst 0 a (by omega) (by simp))]
      exact ih i1 hget
        (fun j t hj hg => hfirst (j + 1) t (by omega) (by simpa using hg))

theorem run_single_test_by_name_first_match_witness :
    run_single_test_by_name duplicate_list "lithium.example.twice"
      = ([{ name := "lithium.example.twice",
            func := [Check.EXPECT true, Check.ASSERT true] }],
          SingleTestResult.exited
            { status := 0, premature := false
              counters := { successful_assertions := 2, failed_assertions := 0 } }) :=
  run_single_test_by_name_first_match duplicate_list "lithium.example.twice" 1
    { name := "lithium.example.twice", func := [Check.EXPECT true, Check.ASSERT true] }
    rfl rfl
    (fun j t hj hg => by
      have hj0 : j = 0 := by omega
      subst hj0
      have ht := Option.some.inj hg
      subst ht
      decide)

/-! ## The words read for positional arguments -/

/-- C26, the code: `argparse` passes `argv[i]` to the action of the argument
`i` after it has advanced `argv` past `i` words, so the argument `i` gets the
word `2 * i` of the words left. For all words `a`, `b`, `c`: with one argument
and the word `a` the destination 0 gets `a`. With two arguments and the words
`a`, `b` the second action gets the `NULL` that ends `argv`: the destination 1
holds `NULL`, not `b`, and the call returns `LI_CMDLINE_CONTINUE`. With three
arguments and the words `a`, `b`, `c` the third action is given the element two
places after `c`, past the `NULL` that ends the array. -/
theorem argparse_reads_wrong_word (a b c : List Char) :
    (argparse example_sscanf (positional_spec 1) false [a] unset_store).map
        (fun o => (o.result, o.store 0))
      = some (LI_CMDLINE_CONTINUE, Value.string (some a))
    ∧ (argparse example_sscanf (positional_spec 2) false [a, b] unset_store).map
        (fun o => (o.result, o.store 0, o.store 1))
      = some (LI_CMDLINE_CONTINUE, Value.string (some a), Value.string none)
    ∧ argv_at [b] 1 = some none
    ∧ argv_at [c] 2 = none
    ∧ (argparse example_sscanf (positional_spec 3) false [a, b, c] unset_store).isNone
      = true := by
  refine ⟨?_, ?_, ?_, ?_, ?_⟩ <;> rfl

/-! ## A run that ends with a record still running -/

/-- C8, the code at the failing input: two tests, one job at a time, and the
second worker is given the pid the first worker had, after the first worker
has been waited for. Every oracle respects `Sys.os_valid` (the run is not one
of `Reachable`, which takes no pid twice). Before the second worker is
reported the first record is `_LI_UNIT_SUCCEEDED` and the second
`_LI_UNIT_RUNNING`, both with the pid 101. When the second worker is reported,
the search of `handle_waitpid` stops at the first record and the guard on its
state does not fire: the first record is rewritten to `_LI_UNIT_FAILED`,
`running_jobs` falls to 0, and the next iteration returns
`TEST_RUNNER_ITERATE_SUCCESS` with the second record in `_LI_UNIT_RUNNING`;
`li_unit_run_tests` returns 1. -/
theorem reused_pid_leaves_running :
    (os_script_valid (default_options example_setup late_exit_options) reused_pid_script
        (initial_state (default_options example_setup late_exit_options) reused_pid_list
          ⟨1000, 0⟩)
      ∧ ¬ script_valid (default_options example_setup late_exit_options) reused_pid_script
        (initial_state (default_options example_setup late_exit_options) reused_pid_list
          ⟨1000, 0⟩))
    ∧ (reused_pid_before.running_jobs, reused_pid_before.children,
        reused_pid_before.test_list.map (fun t => (t.pid, t.state)))
      = (1, [101], [(101, _LI_UNIT_SUCCEEDED), (101, _LI_UNIT_RUNNING)])
    ∧ (run_loop (default_options example_setup late_exit_options) reused_pid_script
        (initial_state (default_options example_setup late_exit_options) reused_pid_list
          ⟨1000, 0⟩)).map
        (fun r => (r.1, r.2.running_jobs, r.2.completed_tests, r.2.children,
          r.2.test_list.map (fun t => (t.pid, t.state))))
      = some (TEST_RUNNER_ITERATE_SUCCESS, 0, 2, [],
          [(101, _LI_UNIT_FAILED), (101, _LI_UNIT_RUNNING)])
    ∧ (li_unit_run_tests example_setup [] late_exit_options reused_pid_list
        reused_pid_script).map (fun r => (r.1, r.2.test_list.map (fun t => t.state)))
      = some (1, [_LI_UNIT_FAILED, _LI_UNIT_RUNNING]) := by
  refine ⟨⟨by decide, by decide⟩, ?_, ?_, ?_⟩ <;> rfl

end Lithium
